import Mathlib

/-!
# cpp_webapp: request framing, routing and response serialisation

A shallow embedding of `src/main.cpp` (`handle_client`), `src/config/utils.cpp`
(`response_http`), `src/app/controller/user_controller.cpp`
(`handle_user_request`) and `src/app/model/user_model.cpp`.

Conventions of the embedding:

* a `std::string` is a `List Char`, one `Char` per byte (string literals of the
  source are ASCII);
* `size_t` / `unsigned long` are 64 bit wide, `int` is 32 bit wide; values are
  `Nat` / `Int` and the range checks of `std::stoul` / `std::stoi` are explicit;
* a C++ exception is an `Except` error; `try` / `catch` is a match on it;
* the socket, SQLite and the JSON parser are the environment: their answers are
  parameters of the functions that consult them, and every call that the code
  makes is recorded in a trace;
* the strings that the code builds are small and their allocation is taken to
  succeed; the buffer of the second read, whose size the peer chooses, is asked
  of the heap: `std::vector<char>(n)` throws `std::length_error` above its
  `max_size()` and `std::bad_alloc` when the heap refuses the block.
-/

namespace WebApp

/-- A `std::string`: a sequence of bytes. -/
abbrev Str := List Char

deriving instance DecidableEq for Except

/-! ## The JSON values of `json.hpp` -/

/-- The exception classes that the `catch` clauses of the sources tell apart:
`json::parse_error`, `json::type_error`, and any other `std::exception`. -/
inductive JsonExn where
  | parse_error
  | type_error
  | other
  deriving DecidableEq, Repr

/-- Modelled from the spec: `json.hpp` (the vendored nlohmann JSON library) is
not among the sources. A `json` value is null, a boolean, an integer, a string,
an array or an object; floating-point numbers and binary values are left out. An
object is held as its list of members in key order. -/
inductive Json where
  | null
  | bool (b : Bool)
  | int (i : Int)
  | str (s : Str)
  | arr (items : List Json)
  | obj (members : List (Str × Json))

/-- The text that `operator<<` prints for an unsigned integer. -/
def decimal (n : Nat) : Str := Nat.toDigits 10 n

/-- The text that `operator<<` prints for a signed integer. -/
def decimalInt (i : Int) : Str :=
  if i < 0 then '-' :: decimal i.natAbs else decimal i.natAbs

/-- One lowercase hexadecimal digit. -/
def hexDigit (d : Nat) : Char := Nat.digitChar (d % 16)

/-- Whether `c` is a UTF-8 continuation byte inside `lo..hi`. -/
def inRange (lo hi : Nat) (c : Char) : Bool := decide (lo ≤ c.toNat) && decide (c.toNat ≤ hi)

/-- Modelled from the spec: `json.hpp` is not among the sources. The escaping
that `dump()` applies to the bytes of a string: the two-character escapes, a
`\u00xx` escape for every other control character, well-formed UTF-8 copied
through, and `type_error` (316) on a byte sequence that is not UTF-8. -/
def escape_string : Str → Except JsonExn Str
  | [] => .ok []
  | c :: rest =>
    let b := c.toNat
    if b ≤ 0x7F then
      let out : Str :=
        if b = 0x08 then ['\\', 'b']
        else if b = 0x09 then ['\\', 't']
        else if b = 0x0A then ['\\', 'n']
        else if b = 0x0C then ['\\', 'f']
        else if b = 0x0D then ['\\', 'r']
        else if b = 0x22 then ['\\', '"']
        else if b = 0x5C then ['\\', '\\']
        else if b ≤ 0x1F then ['\\', 'u', '0', '0', hexDigit (b / 16), hexDigit b]
        else [c]
      (escape_string rest).map (out ++ ·)
    else
      match rest with
      | c1 :: rest1 =>
        if inRange 0xC2 0xDF c && inRange 0x80 0xBF c1 then
          (escape_string rest1).map ([c, c1] ++ ·)
        else
          match rest1 with
          | c2 :: rest2 =>
            if (b = 0xE0 && inRange 0xA0 0xBF c1 || inRange 0xE1 0xEC c && inRange 0x80 0xBF c1
                || b = 0xED && inRange 0x80 0x9F c1 || inRange 0xEE 0xEF c && inRange 0x80 0xBF c1)
                && inRange 0x80 0xBF c2 then
              (escape_string rest2).map ([c, c1, c2] ++ ·)
            else
              match rest2 with
              | c3 :: rest3 =>
                if (b = 0xF0 && inRange 0x90 0xBF c1 || inRange 0xF1 0xF3 c && inRange 0x80 0xBF c1
                    || b = 0xF4 && inRange 0x80 0x8F c1)
                    && inRange 0x80 0xBF c2 && inRange 0x80 0xBF c3 then
                  (escape_string rest3).map ([c, c1, c2, c3] ++ ·)
                else .error .type_error
              | [] => .error .type_error
          | [] => .error .type_error
      | [] => .error .type_error

/-- A string between double quotes, escaped. -/
def dump_string (s : Str) : Except JsonExn Str :=
  (escape_string s).map (fun e => '"' :: e ++ ['"'])

mutual
/-- Modelled from the spec: `json.hpp` is not among the sources. `dump()` with
its default arguments: the compact serialisation, without any white space. -/
def dump : Json → Except JsonExn Str
  | .null => .ok "null".toList
  | .bool true => .ok "true".toList
  | .bool false => .ok "false".toList
  | .int i => .ok (decimalInt i)
  | .str s => dump_string s
  | .arr items => (dump_items items).map (fun e => '[' :: e ++ [']'])
  | .obj members => (dump_members members).map (fun e => '{' :: e ++ ['}'])
/-- The elements of an array, separated by commas. -/
def dump_items : List Json → Except JsonExn Str
  | [] => .ok []
  | [j] => dump j
  | j :: k :: rest => do
    let a ← dump j
    let b ← dump_items (k :: rest)
    pure (a ++ ',' :: b)
/-- The members of an object, separated by commas. -/
def dump_members : List (Str × Json) → Except JsonExn Str
  | [] => .ok []
  | [(key, j)] => do
    let a ← dump_string key
    let b ← dump j
    pure (a ++ ':' :: b)
  | (key, j) :: m :: rest => do
    let a ← dump_string key
    let b ← dump j
    let c ← dump_members (m :: rest)
    pure (a ++ ':' :: b ++ ',' :: c)
end

/-- String literals of the source are read as byte sequences. -/
instance : Coe String Str := ⟨String.toList⟩

/-- Member lookup in an object: `contains(key)` and `operator[]`. -/
def Json.field (j : Json) (key : Str) : Option Json :=
  match j with
  | .obj members => members.lookup key
  | _ => none

/-- The test `is_null()`. -/
def Json.is_null : Json → Bool
  | .null => true
  | _ => false

/-- The comparison `j == "text"` of a value with a string. -/
def Json.eq_string (j : Json) (s : Str) : Bool :=
  match j with
  | .str t => t == s
  | _ => false

/-- The object `json{{key, value}}` with one string member. -/
def json_object1 (key value : Str) : Json := .obj [(key, .str value)]

/-! ## `src/config/utils.cpp` -/

/-- The table `http_status_reasons`. -/
def http_status_reasons : List (Int × Str) :=
  [(200, "OK"), (201, "Created"), (400, "Bad Request"), (404, "Not Found"), (409, "Conflict"),
   (415, "Unsupported Media Type"), (500, "Internal Server Error")]

/-- The reason phrase that `response_http` looks up, with its fallback. -/
def reason_phrase (status_code : Int) : Str :=
  match http_status_reasons.lookup status_code with
  | some reason => reason
  | none => "Unknown Status"

/-- The function `response_http(int, const json&, const std::string&)`. -/
def response_http (status_code : Int) (data : Json) (content_type : Str := "application/json") :
    Except JsonExn Str := do
  let body ← dump data
  pure ("HTTP/1.1 " ++ decimalInt status_code ++ " " ++ reason_phrase status_code ++ "\r\n"
    ++ "Content-Type: " ++ content_type ++ "\r\n"
    ++ "Content-Length: " ++ decimal body.length ++ "\r\n"
    ++ "\r\n"
    ++ body)

/-- The overload `response_http(int, const std::string&)` for error messages. -/
def response_http_error (status_code : Int) (error_message : Str) : Except JsonExn Str :=
  response_http status_code (json_object1 "error" error_message)

/-! ## Number parsing of the C++ library -/

/-- The two exceptions of `std::stoul` and `std::stoi`. -/
inductive StoExn where
  | invalid_argument
  | out_of_range
  deriving DecidableEq, Repr

/-- The characters that `isspace` accepts in the C locale. -/
def isspace (c : Char) : Bool := c == ' ' || (decide (9 ≤ c.toNat) && decide (c.toNat ≤ 13))

/-- The value of a run of decimal digits. -/
def digits_value (ds : Str) : Nat := ds.foldl (fun acc d => 10 * acc + (d.toNat - 48)) 0

/-- What `strtol` / `strtoul` read in base 10: white space is skipped, one sign
is accepted, then the longest run of digits is taken and whatever follows is
ignored. The result is the sign and the magnitude, or `none` without a digit. -/
def scan_integer (s : Str) : Option (Bool × Nat) :=
  let s1 := s.dropWhile isspace
  let negative := s1.head? == some '-'
  let s2 := if s1.head? == some '-' || s1.head? == some '+' then s1.tail else s1
  let ds := s2.takeWhile Char.isDigit
  if ds = [] then none else some (negative, digits_value ds)

/-- The function `std::stoul` (64-bit `unsigned long`): a negative text is
negated in unsigned arithmetic. -/
def stoul (s : Str) : Except StoExn Nat :=
  match scan_integer s with
  | none => .error .invalid_argument
  | some (negative, magnitude) =>
    if magnitude ≥ 2 ^ 64 then .error .out_of_range
    else if negative then .ok ((2 ^ 64 - magnitude) % 2 ^ 64) else .ok magnitude

/-- The function `std::stoi` (32-bit `int`). -/
def stoi (s : Str) : Except StoExn Int :=
  match scan_integer s with
  | none => .error .invalid_argument
  | some (negative, magnitude) =>
    let v : Int := if negative then -(magnitude : Int) else magnitude
    if v < -(2 ^ 31) ∨ v ≥ 2 ^ 31 then .error .out_of_range else .ok v

/-! ## `src/app/model/user_model.cpp` -/

/-- The result code of `sqlite3_step`, as far as the model tells codes apart. -/
inductive StepCode where
  | done
  | constraint
  | failure
  deriving DecidableEq, Repr

/-- The answers of SQLite and of `sha256`, the environment of the user model.
A statement that cannot be prepared answers `none`. -/
structure Sqlite where
  /-- Whether `get_db()` returns a connection. -/
  connected : Bool
  /-- The hash function of `utils.cpp` (OpenSSL). -/
  sha256 : Str → Str
  /-- The `INSERT INTO users` statement, run on a user name and a hash. -/
  insert_user : Str → Str → Option StepCode
  /-- The `SELECT id, username FROM users` statement: the rows found. -/
  select_users : Option (List (Int × Str))
  /-- The `DELETE FROM users WHERE id = ?` statement: code and `sqlite3_changes`. -/
  delete_user : Int → Option (StepCode × Nat)

/-- The function `create_user_in_db`: success flag and `error_response`. -/
def create_user_in_db (db : Sqlite) (username password : Str) : Bool × Json :=
  if !db.connected then (false, json_object1 "error" "Database connection not available")
  else
    match db.insert_user username (db.sha256 password) with
    | none => (false, json_object1 "error" "Database preparation failed")
    | some rc =>
      if rc ≠ .done then
        if rc = .constraint then (false, json_object1 "error" "Username already exists")
        else (false, json_object1 "error" "Failed to create user in database")
      else (true, .null)

/-- The function `get_all_users_from_db`: the array of users and `error_response`. -/
def get_all_users_from_db (db : Sqlite) : Json × Json :=
  if !db.connected then (.arr [], json_object1 "error" "Database connection not available")
  else
    match db.select_users with
    | some rows =>
      (.arr (rows.map (fun row => .obj [("id", .int row.1), ("username", .str row.2)])), .null)
    | none => (.arr [], json_object1 "error" "Failed to retrieve users from database")

/-- The function `delete_user_from_db`: success flag and `error_response`. -/
def delete_user_from_db (db : Sqlite) (id : Int) : Bool × Json :=
  if !db.connected then (false, json_object1 "error" "Database connection not available")
  else
    match db.delete_user id with
    | none => (false, json_object1 "error" "Database preparation failed")
    | some (rc, changes) =>
      if rc ≠ .done then (false, json_object1 "error" "Failed to delete user from database")
      else if changes = 0 then (false, json_object1 "error" "User not found")
      else (true, .null)

/-! ## `src/app/controller/user_controller.cpp` -/

/-- The header map `std::unordered_map<std::string, std::string>`: at most one
entry for a key. -/
abbrev Headers := List (Str × Str)

/-- The lookup `headers.find(key)`. -/
def Headers.find (h : Headers) (key : Str) : Option Str := h.lookup key

/-- The assignment `headers[key] = value`: the entry of `key` is replaced. -/
def Headers.set (h : Headers) (key value : Str) : Headers :=
  (key, value) :: h.filter (fun entry => entry.1 != key)

/-- Whether `pattern` occurs in `text`: `text.find(pattern) != npos`. -/
def contains_sub (pattern : Str) : Str → Bool
  | [] => pattern.isEmpty
  | c :: rest => pattern.isPrefixOf (c :: rest) || contains_sub pattern rest

/-- A call of the user model made by the controller. -/
inductive Call where
  | get_all_users
  | create_user (username password : Str)
  | delete_user (id : Int)
  deriving DecidableEq, Repr

/-- The result of a controller: the model calls made, and the response
returned or the exception that leaves the function. -/
abbrev Handled := List Call × Except JsonExn Str

/-- The `try` block of `POST /users` (lines 45 to 79), with the exception that
leaves it. `parse` is `json::parse` of `json.hpp`; a member that `contains`
finds and for which `is_string()` holds is a `Json.str`. -/
def post_users_try (parse : Str → Except JsonExn Json) (db : Sqlite) (body : Str) : Handled :=
  match parse body with
  | .error e => ([], .error e)
  | .ok request_json =>
    match request_json.field "username", request_json.field "password" with
    | some (.str username), some (.str password) =>
      if username.isEmpty || password.isEmpty then
        ([], response_http_error 400 "'username' and 'password' cannot be empty")
      else
        let (success, error_resp) := create_user_in_db db username password
        if success then
          ([.create_user username password],
            response_http 201 (json_object1 "message" "User created successfully"))
        else if (match error_resp.field "error" with
            | some e => e.eq_string "Username already exists"
            | none => false) then
          ([.create_user username password], response_http 409 error_resp)
        else
          ([.create_user username password], response_http 500 error_resp)
    | _, _ =>
      ([], response_http_error 400 "Missing or invalid 'username' or 'password' in JSON body")

/-- The `catch` clauses of `POST /users` (lines 81 to 95). -/
def post_users_catch (r : Handled) : Handled :=
  match r.2 with
  | .ok _ => r
  | .error .parse_error => (r.1, response_http_error 400 "Invalid JSON format")
  | .error .type_error => (r.1, response_http_error 400 "Invalid JSON structure or types")
  | .error .other => (r.1, response_http_error 500 "Internal server error processing request")

/-- The `try` block of `DELETE /users/{id}` (lines 105 to 131), with the
exception of `std::stoi` as the outer error. -/
def delete_user_try (db : Sqlite) (path : Str) : Except StoExn Handled :=
  let id_str := path.drop 7
  if id_str.isEmpty then .ok ([], response_http_error 400 "User ID missing in path")
  else
    match stoi id_str with
    | .error e => .error e
    | .ok id =>
      let (success, error_resp) := delete_user_from_db db id
      if success then
        .ok ([.delete_user id], response_http 200 (json_object1 "message" "User deleted successfully"))
      else if (match error_resp.field "error" with
          | some e => e.eq_string "User not found"
          | none => false) then
        .ok ([.delete_user id], response_http 404 error_resp)
      else
        .ok ([.delete_user id], response_http 500 error_resp)

/-- The `catch` clauses of `DELETE /users/{id}` (lines 133 to 145): every
exception of `json.hpp` is a `std::exception`. -/
def delete_user_catch (r : Except StoExn Handled) : Handled :=
  match r with
  | .error .invalid_argument => ([], response_http_error 400 "Invalid user ID format")
  | .error .out_of_range => ([], response_http_error 400 "User ID out of range")
  | .ok (calls, .error _) => (calls, response_http_error 500 "Internal server error processing request")
  | .ok (calls, .ok response) => (calls, .ok response)

/-- The function `handle_user_request`. -/
def handle_user_request (parse : Str → Except JsonExn Json) (db : Sqlite)
    (method path : Str) (headers : Headers) (body : Str) : Handled :=
  let not_found : Handled := ([], response_http_error 404 "User API endpoint not found")
  if path = "/users" then
    if method = "GET" then
      let (users, error_resp) := get_all_users_from_db db
      if !error_resp.is_null then ([.get_all_users], response_http 500 error_resp)
      else ([.get_all_users], response_http 200 users)
    else if method = "POST" then
      if (match headers.find "content-type" with
          | none => true
          | some content_type => !contains_sub "application/json" content_type) then
        ([], response_http_error 415 "Content-Type must be application/json")
      else if body.isEmpty then
        ([], response_http_error 400 "Request body is empty")
      else
        post_users_catch (post_users_try parse db body)
    else not_found
  else if ("/users/" : Str).isPrefixOf path then
    if method = "DELETE" then delete_user_catch (delete_user_try db path)
    else not_found
  else not_found

/-! ## `src/main.cpp` -/

/-- The constant `READ_BUFFER_SIZE`. -/
def READ_BUFFER_SIZE : Nat := 4096

/-- The answer of one `read` on the socket: `-1`, or the bytes that are there
(none at the end of the stream). -/
inductive ReadResult where
  | failure
  | data (bytes : Str)

/-- The peer of a connection: what the first and the second `read` find. A
`read` of `count` bytes takes at most `count` of them. -/
structure Socket where
  first : ReadResult
  second : ReadResult

/-- What `handle_client` does, in order. `dispatch` marks the entry into the
routing block (line 151) with the request handed to it; `terminate` is an
exception that leaves the thread function: nothing is done after it. -/
inductive Event where
  | read (count : Nat)
  | send (bytes : Str)
  | close
  | dispatch (method path : Str) (headers : Headers) (body : Str)
  | call (c : Call)
  | terminate
  deriving DecidableEq

/-- The position `text.find(pattern)`, `none` for `npos`. -/
def find_sub (pattern : Str) : Str → Option Nat
  | [] => if pattern.isEmpty then some 0 else none
  | c :: rest =>
    if pattern.isPrefixOf (c :: rest) then some 0 else (find_sub pattern rest).map (· + 1)

/-- The successive results of `std::getline` on a stream over `s`. -/
def getlines : Str → List Str
  | [] => []
  | c :: rest =>
    if c = '\n' then [] :: getlines rest
    else
      match getlines rest with
      | [] => [[c]]
      | line :: lines => (c :: line) :: lines

/-- Removal of one trailing carriage return (lines 63 to 66 and 78 to 81). -/
def strip_cr (line : Str) : Str :=
  if line.getLast? = some '\r' then line.dropLast else line

/-- One extraction `stream >> token`: the token and the rest of the stream. -/
def extract_token (s : Str) : Str × Str :=
  let s1 := s.dropWhile isspace
  (s1.takeWhile (fun c => !isspace c), s1.dropWhile (fun c => !isspace c))

/-- The request line of lines 59 to 70: the first line of the header text, cut
into method, path and version; a token that is not there is empty. -/
def parse_request_line (headers_str : Str) : Str × Str × Str :=
  let request_line := strip_cr ((getlines headers_str).headD [])
  let (method, s1) := extract_token request_line
  let (path, s2) := extract_token s1
  let (version, _) := extract_token s2
  (method, path, version)

/-- A space or a tab. -/
def isblank (c : Char) : Bool := c == ' ' || c == '\t'

/-- The two `erase` calls of lines 91 and 92: spaces and tabs are removed at
both ends. -/
def trim (value : Str) : Str :=
  ((value.dropWhile isblank).reverse.dropWhile isblank).reverse

/-- The function `::tolower` in the C locale. -/
def tolower (c : Char) : Char :=
  if 65 ≤ c.toNat ∧ c.toNat ≤ 90 then Char.ofNat (c.toNat + 32) else c

/-- The name of a header line: the text before the first colon, in lowercase. -/
def header_name (line : Str) : Str := (line.takeWhile (fun c => c != ':')).map tolower

/-- The value of a header line: the text after the first colon, trimmed. -/
def header_value (line : Str) : Str := trim ((line.dropWhile (fun c => c != ':')).tail)

/-- The loop of lines 76 to 113 over the lines that follow the request line,
from the map and the `content_length` so far. `none` is the early return of
line 109, after the response to an invalid Content-Length. -/
def parse_headers : List Str → Headers → Nat → Option (Headers × Nat)
  | [], headers, content_length => some (headers, content_length)
  | raw :: rest, headers, content_length =>
    let header_line := strip_cr raw
    if header_line.isEmpty then some (headers, content_length)
    else if ':' ∈ header_line then
      let name := header_name header_line
      let value := header_value header_line
      let headers1 := headers.set name value
      if name = ("content-length" : Str) then
        match stoul value with
        | .ok n => parse_headers rest headers1 n
        | .error _ => none
      else parse_headers rest headers1 content_length
    else parse_headers rest headers content_length

/-- The response of line 49. -/
def malformed_response : Str :=
  "HTTP/1.1 400 Bad Request\r\nContent-Length: 28\r\n\r\nMalformed request headers."

/-- The response of line 106. -/
def invalid_length_response : Str :=
  "HTTP/1.1 400 Bad Request\r\nContent-Length: 29\r\n\r\nInvalid Content-Length header."

/-- The response of lines 131 and 140. -/
def incomplete_response : Str :=
  "HTTP/1.1 400 Bad Request\r\nContent-Length: 26\r\n\r\nIncomplete request body."

/-- The routing block of `handle_client` (lines 151 to 168): the controller is
chosen by the path, its response is sent and the socket is closed. -/
def route (parse : Str → Except JsonExn Json) (db : Sqlite)
    (method path : Str) (headers : Headers) (body : Str) : List Event :=
  let handled : Handled :=
    if ("/users" : Str).isPrefixOf path then handle_user_request parse db method path headers body
    else ([], response_http 404 (json_object1 "message" "Endpoint not found"))
  match handled with
  | (calls, .ok response) =>
    .dispatch method path headers body :: calls.map .call ++ [.send response, .close]
  | (calls, .error _) =>
    .dispatch method path headers body :: calls.map .call ++ [.terminate]

/-- The value of `max_size()` of a `std::vector<char>` on a 64-bit machine:
`PTRDIFF_MAX`. -/
def vector_max_size : Nat := 2 ^ 63 - 1

/-- The function `handle_client`, as the trace of what it does. `alloc n` tells
whether the heap provides a block of `n` bytes. The constructor of the buffer
of line 120 throws `std::length_error` for a size above `max_size()` and
`std::bad_alloc` when the heap refuses; `handle_client` has no `try` around
it, so that the exception leaves the thread function before the second read. -/
def handle_client (parse : Str → Except JsonExn Json) (db : Sqlite) (alloc : Nat → Bool)
    (sock : Socket) : List Event :=
  match sock.first with
  | .failure => [.read (READ_BUFFER_SIZE - 1), .close]
  | .data available =>
    let request_data := available.take (READ_BUFFER_SIZE - 1)
    if request_data.isEmpty then [.read (READ_BUFFER_SIZE - 1), .close]
    else
      match find_sub "\r\n\r\n" request_data with
      | none => [.read (READ_BUFFER_SIZE - 1), .send malformed_response, .close]
      | some headers_end_pos =>
        let headers_str := request_data.take headers_end_pos
        let body_part := request_data.drop (headers_end_pos + 4)
        let (method, path, _version) := parse_request_line headers_str
        match parse_headers (getlines headers_str).tail [] 0 with
        | none => [.read (READ_BUFFER_SIZE - 1), .send invalid_length_response, .close]
        | some (headers, content_length) =>
          if content_length > 0 ∧ body_part.length < content_length then
            let remaining := content_length - body_part.length
            if remaining > vector_max_size then [.read (READ_BUFFER_SIZE - 1), .terminate]
            else if alloc remaining = false then [.read (READ_BUFFER_SIZE - 1), .terminate]
            else
              match sock.second with
              | .failure =>
                [.read (READ_BUFFER_SIZE - 1), .read remaining, .send incomplete_response, .close]
              | .data more =>
                let extra := more.take remaining
                if extra.isEmpty then
                  [.read (READ_BUFFER_SIZE - 1), .read remaining, .send incomplete_response,
                    .close]
                else if (body_part ++ extra).length ≠ content_length then
                  [.read (READ_BUFFER_SIZE - 1), .read remaining, .send incomplete_response,
                    .close]
                else
                  .read (READ_BUFFER_SIZE - 1) :: .read remaining
                    :: route parse db method path headers (body_part ++ extra)
          else if body_part.length > content_length then
            .read (READ_BUFFER_SIZE - 1)
              :: route parse db method path headers (body_part.take content_length)
          else
            .read (READ_BUFFER_SIZE - 1) :: route parse db method path headers body_part

/-! ## Reading a response back, and the environments of the examples -/

/-- The body of a response: the bytes after the first blank line. -/
def response_body (response : Str) : Option Str :=
  (find_sub "\r\n\r\n" response).map (fun pos => response.drop (pos + 4))

/-- The number that the first `Content-Length: ` header of a response declares. -/
def declared_length (response : Str) : Option Nat :=
  (find_sub "Content-Length: " response).map
    (fun pos => digits_value ((response.drop (pos + 16)).takeWhile Char.isDigit))

/-- The status code on the status line of a response. -/
def status_code_of (response : Str) : Option Nat :=
  if ("HTTP/1.1 " : Str).isPrefixOf response then
    some (digits_value ((response.drop 9).takeWhile Char.isDigit))
  else none

/-- The status code of the response that a controller returns. -/
def status_of (r : Handled) : Option Nat :=
  match r.2 with
  | .ok response => status_code_of response
  | .error _ => none

/-- The bodies that `POST /users` accepts: not empty, parsed as a JSON value
whose members `username` and `password` are the non-empty strings `u` and `p`. -/
def valid_user_body (parse : Str → Except JsonExn Json) (body u p : Str) : Prop :=
  body ≠ [] ∧ ∃ j, parse body = .ok j
    ∧ j.field ("username" : String).toList = some (.str u)
    ∧ j.field ("password" : String).toList = some (.str p)
    ∧ u ≠ [] ∧ p ≠ []

/-- The reason phrases as section 3 of the specification lists them. -/
def spec_reason (status_code : Int) : Str :=
  if status_code = 200 then "OK"
  else if status_code = 201 then "Created"
  else if status_code = 400 then "Bad Request"
  else if status_code = 404 then "Not Found"
  else if status_code = 409 then "Conflict"
  else if status_code = 415 then "Unsupported Media Type"
  else if status_code = 500 then "Internal Server Error"
  else "Unknown Status"

/-- The header lines of a block: the lines that follow the request line,
without their carriage return, up to the first empty one. -/
def header_block (raw : List Str) : List Str :=
  (raw.map strip_cr).takeWhile (fun line => !line.isEmpty)

/-- Whether a line has a colon and a name that lowercases to `key`. -/
def is_header (key : Str) (line : Str) : Bool :=
  decide (':' ∈ line) && (header_name line == key)

/-- The value of the last line of a block whose name lowercases to `key`. -/
def last_value (key : Str) (block : List Str) : Option Str :=
  ((block.filter (is_header key)).getLast?).map header_value

/-- The number that a Content-Length value stands for once `std::stoul` has
accepted it. -/
def length_of (value : Str) : Nat :=
  match stoul value with
  | .ok n => n
  | .error _ => 0

/-- The Content-Length that a block declares: that of its last Content-Length
line, and 0 without such a line. -/
def declared_content_length (block : List Str) : Nat :=
  match last_value ("content-length" : String).toList block with
  | some value => length_of value
  | none => 0

/-- The bytes that a `read` of `count` bytes delivers: none on failure. -/
def received (r : ReadResult) (count : Nat) : Str :=
  match r with
  | .failure => []
  | .data bytes => bytes.take count

/-- An uppercase ASCII letter. -/
def is_upper (c : Char) : Prop := 65 ≤ c.toNat ∧ c.toNat ≤ 90

/-- A database for the examples: every statement succeeds, no user is stored. -/
def sample_db : Sqlite :=
  { connected := true
    sha256 := fun password => password
    insert_user := fun _ _ => some .done
    select_users := some []
    delete_user := fun _ => some (.done, 1) }

/-- The answers of `json::parse` on the bodies of the examples: an object for a
well-formed user, the number overflow error (406, an exception that is neither
a `parse_error` nor a `type_error`) for the number `1e999`, and a `parse_error`
elsewhere. -/
def sample_parse (body : Str) : Except JsonExn Json :=
  if body = ("\x7b\"username\":\"al\",\"password\":\"p\"\x7d" : Str) then
    .ok (.obj [("password", .str "p"), ("username", .str "al")])
  else if body = ("1e999" : Str) then .error .other
  else .error .parse_error

/-- A heap for the examples: it provides the blocks of at most one mebibyte. -/
def sample_alloc (n : Nat) : Bool := decide (n ≤ 1048576)

/-- Whether an event is a `send`. -/
def Event.is_send : Event → Bool
  | .send _ => true
  | _ => false

/-- Whether an event is a `close`. -/
def Event.is_close : Event → Bool
  | .close => true
  | _ => false

/-- Whether an event neither writes a response, nor closes the socket, nor
ends the run by an exception. -/
def Event.is_quiet : Event → Bool
  | .send _ => false
  | .close => false
  | .terminate => false
  | _ => true

/-! ## Theorems -/

theorem digits_value_append (ds : Str) (d : Char) :
    digits_value (ds ++ [d]) = 10 * digits_value ds + (d.toNat - 48) := by
  simp [digits_value, List.foldl_append]

theorem toDigitsCore_append (f : Nat) : ∀ (n : Nat) (ds : List Char),
    Nat.toDigitsCore 10 f n ds = Nat.toDigitsCore 10 f n [] ++ ds := by
  induction f with
  | zero => intro n ds; simp [Nat.toDigitsCore]
  | succ f ih =>
    intro n ds
    simp only [Nat.toDigitsCore]
    split
    · simp
    · rw [ih (n / 10) (Nat.digitChar (n % 10) :: ds), ih (n / 10) [Nat.digitChar (n % 10)]]
      simp

theorem digitChar_value (k : Nat) (h : k < 10) : (Nat.digitChar k).toNat - 48 = k := by
  interval_cases k <;> rfl

theorem digits_value_toDigitsCore (f : Nat) : ∀ n : Nat, n < f →
    digits_value (Nat.toDigitsCore 10 f n []) = n := by
  induction f with
  | zero => intro n h; omega
  | succ f ih =>
    intro n h
    simp only [Nat.toDigitsCore]
    split
    · rename_i h0
      have h1 : n % 10 = n := by omega
      have h2 := digitChar_value n (by omega)
      simpa [digits_value, h1] using h2
    · rename_i h0
      rw [toDigitsCore_append, digits_value_append, ih (n / 10) (by omega),
        digitChar_value (n % 10) (Nat.mod_lt _ (by decide))]
      omega

/-- The text printed for `n` denotes `n`. -/
theorem digits_value_decimal (n : Nat) : digits_value (decimal n) = n := by
  simp only [decimal, Nat.toDigits]
  exact digits_value_toDigitsCore (n + 1) n (by omega)

theorem reason_phrase_eq_spec (status_code : Int) :
    reason_phrase status_code = spec_reason status_code := by
  by_cases h1 : status_code = 200
  · subst h1; rfl
  by_cases h2 : status_code = 201
  · subst h2; rfl
  by_cases h3 : status_code = 400
  · subst h3; rfl
  by_cases h4 : status_code = 404
  · subst h4; rfl
  by_cases h5 : status_code = 409
  · subst h5; rfl
  by_cases h6 : status_code = 415
  · subst h6; rfl
  by_cases h7 : status_code = 500
  · subst h7; rfl
  have e1 : (status_code == 200) = false := beq_eq_false_iff_ne.mpr h1
  have e2 : (status_code == 201) = false := beq_eq_false_iff_ne.mpr h2
  have e3 : (status_code == 400) = false := beq_eq_false_iff_ne.mpr h3
  have e4 : (status_code == 404) = false := beq_eq_false_iff_ne.mpr h4
  have e5 : (status_code == 409) = false := beq_eq_false_iff_ne.mpr h5
  have e6 : (status_code == 415) = false := beq_eq_false_iff_ne.mpr h6
  have e7 : (status_code == 500) = false := beq_eq_false_iff_ne.mpr h7
  simp only [reason_phrase, spec_reason, http_status_reasons, List.lookup, e1, e2, e3, e4, e5,
    e6, e7, h1, h2, h3, h4, h5, h6, h7, if_false]

/-- C1 (the fixed responses break the invariant): a first read without the
header terminator, a request whose Content-Length is rejected and a request
whose body stays short are answered with the three fixed responses of
`handle_client`, and each of them declares a Content-Length that is not the
byte length of its body: 28 for 26 bytes, 29 for 30 bytes, 26 for 24 bytes. -/
theorem C1_fixed_responses_declare_wrong_length :
    handle_client sample_parse sample_db sample_alloc ⟨.data "GET / HTTP/1.1\r\n", .failure⟩
        = [.read 4095, .send malformed_response, .close]
      ∧ handle_client sample_parse sample_db sample_alloc
          ⟨.data "GET / HTTP/1.1\r\nContent-Length: x\r\n\r\n", .failure⟩
        = [.read 4095, .send invalid_length_response, .close]
      ∧ handle_client sample_parse sample_db sample_alloc
          ⟨.data "GET / HTTP/1.1\r\nContent-Length: 10\r\n\r\n", .data "abc"⟩
        = [.read 4095, .read 10, .send incomplete_response, .close]
      ∧ declared_length malformed_response = some 28
      ∧ response_body malformed_response = some ("Malformed request headers." : String).toList
      ∧ ("Malformed request headers." : String).toList.length = 26
      ∧ declared_length invalid_length_response = some 29
      ∧ response_body invalid_length_response
          = some ("Invalid Content-Length header." : String).toList
      ∧ ("Invalid Content-Length header." : String).toList.length = 30
      ∧ declared_length incomplete_response = some 26
      ∧ response_body incomplete_response = some ("Incomplete request body." : String).toList
      ∧ ("Incomplete request body." : String).toList.length = 24 :=
  ⟨rfl, rfl, rfl, rfl, rfl, rfl, rfl, rfl, rfl, rfl, rfl, rfl⟩

/-- C2: for every status code, payload and content type, `response_http` is
the status line with the reason phrase of the table (or `Unknown Status`), the
Content-Type line, the Content-Length line with the decimal length of the
serialised payload, a blank line and the serialised payload; its only failure
is that of the serialisation, whatever the status code, and the number printed
on the Content-Length line is the length of the body. -/
theorem C2_response_http_format (status_code : Int) (data : Json) (content_type : Str) :
    response_http status_code data content_type
        = (dump data).map (fun body =>
            ("HTTP/1.1 " : String).toList ++ decimalInt status_code ++ (" " : String).toList
              ++ spec_reason status_code ++ ("\r\n" : String).toList
              ++ ("Content-Type: " : String).toList ++ content_type ++ ("\r\n" : String).toList
              ++ ("Content-Length: " : String).toList ++ decimal body.length
              ++ ("\r\n" : String).toList
              ++ ("\r\n" : String).toList
              ++ body)
      ∧ (∀ body : Str, digits_value (decimal body.length) = body.length)
      ∧ spec_reason 204 = ("Unknown Status" : String).toList := by
  refine ⟨?_, fun body => digits_value_decimal _, rfl⟩
  unfold response_http
  rw [reason_phrase_eq_spec]
  cases dump data <;> rfl

/-! ### The header map -/

theorem lookup_filter_ne (h : Headers) (k key : Str) (hne : key ≠ k) :
    List.lookup key (h.filter (fun entry => entry.1 != k)) = List.lookup key h := by
  induction h with
  | nil => rfl
  | cons e rest ih =>
    obtain ⟨a, b⟩ := e
    by_cases hk : a = k
    · subst hk
      have h1 : (key == a) = false := beq_eq_false_iff_ne.mpr hne
      simp [List.filter, List.lookup, h1, ih]
    · have h1 : (a != k) = true := by simpa using hk
      simp only [List.filter, h1, List.lookup, ih]

theorem find_set (h : Headers) (k v key : Str) :
    (h.set k v).find key = if key = k then some v else h.find key := by
  unfold Headers.set Headers.find
  by_cases hk : key = k
  · subst hk; simp [List.lookup]
  · have h1 : (key == k) = false := beq_eq_false_iff_ne.mpr hk
    simp only [List.lookup, h1, hk, if_false]
    exact lookup_filter_ne h k key hk

theorem mem_set (h : Headers) (k v : Str) (e : Str × Str) (he : e ∈ h.set k v) :
    e = (k, v) ∨ e ∈ h := by
  unfold Headers.set at he
  rcases List.mem_cons.mp he with h1 | h1
  · exact Or.inl h1
  · exact Or.inr (List.mem_filter.mp h1).1

theorem nodup_set (h : Headers) (k v : Str) (hn : (h.map Prod.fst).Nodup) :
    ((h.set k v).map Prod.fst).Nodup := by
  unfold Headers.set
  rw [List.map_cons, List.nodup_cons]
  constructor
  · intro hmem
    obtain ⟨e, he, hk⟩ := List.mem_map.mp hmem
    have := (List.mem_filter.mp he).2
    simp at this
    exact this hk
  · exact hn.sublist ((List.filter_sublist h).map Prod.fst)

theorem tolower_not_upper (c : Char) : ¬ is_upper (tolower c) := by
  unfold tolower is_upper
  split
  · rename_i hc
    obtain ⟨h1, h2⟩ := hc
    have h3 : (Char.ofNat (c.toNat + 32)).toNat = c.toNat + 32 := by
      generalize c.toNat = k at h1 h2
      interval_cases k <;> rfl
    omega
  · assumption

theorem header_name_not_upper (line : Str) : ∀ c ∈ header_name line, ¬ is_upper c := by
  intro c hc
  unfold header_name at hc
  obtain ⟨d, _, hd⟩ := List.mem_map.mp hc
  subst hd
  exact tolower_not_upper d

theorem is_header_iff (key line : Str) :
    is_header key line = true ↔ ':' ∈ line ∧ header_name line = key := by
  simp [is_header]

theorem is_header_false (key line : Str) (h : ¬ (':' ∈ line ∧ header_name line = key)) :
    is_header key line = false := by
  cases hh : is_header key line with
  | false => rfl
  | true => exact absurd ((is_header_iff key line).mp hh) h

theorem last_value_cons (key line : Str) (block : List Str) :
    last_value key (line :: block)
      = (last_value key block).or (if is_header key line then some (header_value line) else none) := by
  unfold last_value
  by_cases hl : is_header key line = true
  · simp only [List.filter, hl, if_true, List.getLast?_cons]
    cases (List.filter (is_header key) block).getLast? <;> rfl
  · have hl2 : is_header key line = false := by simpa using hl
    simp only [List.filter, hl2]
    cases (List.filter (is_header key) block).getLast? <;> simp

theorem header_block_cons (raw : Str) (rest : List Str) :
    header_block (raw :: rest)
      = if (strip_cr raw).isEmpty then [] else strip_cr raw :: header_block rest := by
  unfold header_block
  by_cases h : (strip_cr raw).isEmpty = true
  · simp [List.takeWhile, h]
  · have h2 : (strip_cr raw).isEmpty = false := by simpa using h
    simp [List.takeWhile, h2]

/-- The loop invariant of `parse_headers`: the map that the loop returns holds,
for every key, the value of the last matching line of the block, or else what
the map held before. -/
theorem parse_headers_find (raw : List Str) : ∀ (h0 : Headers) (c0 : Nat) (h : Headers) (n : Nat),
    parse_headers raw h0 c0 = some (h, n) →
    ∀ key, h.find key = (last_value key (header_block raw)).or (h0.find key) := by
  induction raw with
  | nil =>
    intro h0 c0 h n hp key
    simp only [parse_headers, Option.some.injEq, Prod.mk.injEq] at hp
    obtain ⟨rfl, rfl⟩ := hp
    simp [header_block, last_value]
  | cons raw rest ih =>
    intro h0 c0 h n hp key
    rw [header_block_cons]
    unfold parse_headers at hp
    simp only at hp
    by_cases he : (strip_cr raw).isEmpty = true
    · simp only [he, if_true, Option.some.injEq, Prod.mk.injEq] at hp
      obtain ⟨rfl, rfl⟩ := hp
      simp [he, last_value]
    · have he2 : (strip_cr raw).isEmpty = false := by simpa using he
      simp only [he2, Bool.false_eq_true, if_false] at hp ⊢
      rw [last_value_cons]
      by_cases hc : ':' ∈ strip_cr raw
      · simp only [hc, if_true] at hp
        have hfind : (h0.set (header_name (strip_cr raw)) (header_value (strip_cr raw))).find key
            = if is_header key (strip_cr raw) then some (header_value (strip_cr raw))
              else h0.find key := by
          rw [find_set]
          by_cases hk : key = header_name (strip_cr raw)
          · simp [is_header, hc, hk]
          · have hk2 : ¬ header_name (strip_cr raw) = key := fun e => hk e.symm
            simp [is_header, hk, hk2]
        have step : ∀ m, parse_headers rest
            (h0.set (header_name (strip_cr raw)) (header_value (strip_cr raw))) m = some (h, n) →
            h.find key = ((last_value key (header_block rest)).or
              (if is_header key (strip_cr raw) then some (header_value (strip_cr raw))
                else none)).or (h0.find key) := by
          intro m hm
          rw [ih _ m h n hm key, hfind]
          cases last_value key (header_block rest) <;> cases is_header key (strip_cr raw) <;> simp
        by_cases hn : header_name (strip_cr raw) = ("content-length" : String).toList
        · simp only [hn, if_true] at hp
          cases hs : stoul (header_value (strip_cr raw)) with
          | error e => simp [hs] at hp
          | ok m =>
            simp only [hs] at hp
            rw [← hn] at hp
            exact step m hp
        · simp only [hn, if_false] at hp
          exact step c0 hp
      · simp only [hc, if_false] at hp
        have hh : is_header key (strip_cr raw) = false := by simp [is_header, hc]
        rw [ih h0 c0 h n hp key, hh]
        cases last_value key (header_block rest) <;> simp

/-- Whatever every assignment of the loop preserves holds of the map returned. -/
theorem parse_headers_preserves (P : Headers → Prop)
    (hset : ∀ (h : Headers) (line : Str), P h → P (h.set (header_name line) (header_value line)))
    (raw : List Str) : ∀ (h0 : Headers) (c0 : Nat) (h : Headers) (n : Nat),
    P h0 → parse_headers raw h0 c0 = some (h, n) → P h := by
  induction raw with
  | nil =>
    intro h0 c0 h n hP hp
    simp only [parse_headers, Option.some.injEq, Prod.mk.injEq] at hp
    obtain ⟨rfl, rfl⟩ := hp
    exact hP
  | cons raw rest ih =>
    intro h0 c0 h n hP hp
    unfold parse_headers at hp
    simp only at hp
    by_cases he : (strip_cr raw).isEmpty = true
    · simp only [he, if_true, Option.some.injEq, Prod.mk.injEq] at hp
      obtain ⟨rfl, rfl⟩ := hp
      exact hP
    · have he2 : (strip_cr raw).isEmpty = false := by simpa using he
      simp only [he2, Bool.false_eq_true, if_false] at hp
      by_cases hc : ':' ∈ strip_cr raw
      · simp only [hc, if_true] at hp
        by_cases hn : header_name (strip_cr raw) = ("content-length" : String).toList
        · simp only [hn, if_true] at hp
          cases hs : stoul (header_value (strip_cr raw)) with
          | error e => simp [hs] at hp
          | ok m =>
            simp only [hs] at hp
            rw [← hn] at hp
            exact ih _ m h n (hset h0 _ hP) hp
        · simp only [hn, if_false] at hp
          exact ih _ c0 h n (hset h0 _ hP) hp
      · simp only [hc, if_false] at hp
        exact ih h0 c0 h n hP hp

/-- What `trim` removes at both ends is made of spaces and tabs, and what it
leaves neither starts nor ends with one. -/
theorem trim_spec (value : Str) :
    ∃ a b : Str, value = a ++ trim value ++ b
      ∧ (∀ c ∈ a, isblank c = true) ∧ (∀ c ∈ b, isblank c = true)
      ∧ (∀ c, (trim value).head? = some c → isblank c = false)
      ∧ (∀ c, (trim value).getLast? = some c → isblank c = false) := by
  set w := value.dropWhile isblank with hw
  refine ⟨value.takeWhile isblank, (w.reverse.takeWhile isblank).reverse, ?_, ?_, ?_, ?_, ?_⟩
  · have h1 : w = trim value ++ (w.reverse.takeWhile isblank).reverse := by
      have h2 := List.takeWhile_append_dropWhile isblank w.reverse
      have h3 := congrArg List.reverse h2
      simp only [List.reverse_append, List.reverse_reverse] at h3
      simpa [trim, hw] using h3.symm
    rw [List.append_assoc, ← h1, hw, List.takeWhile_append_dropWhile]
  · intro c hc
    exact List.mem_takeWhile_imp hc
  · intro c hc
    exact List.mem_takeWhile_imp (List.mem_reverse.mp hc)
  · intro c hc
    have h1 : w = trim value ++ (w.reverse.takeWhile isblank).reverse := by
      have h2 := List.takeWhile_append_dropWhile isblank w.reverse
      have h3 := congrArg List.reverse h2
      simp only [List.reverse_append, List.reverse_reverse] at h3
      simpa [trim, hw] using h3.symm
    have h4 : w.head? = some c := by
      rw [h1]
      cases ht : trim value with
      | nil => simp [ht] at hc
      | cons x xs => simpa [ht] using hc
    have h5 := List.head?_dropWhile_not isblank value
    rw [← hw, h4] at h5
    simpa using h5
  · intro c hc
    have h1 : (w.reverse.dropWhile isblank).head? = some c := by
      simpa [trim, hw, List.getLast?_reverse] using hc
    have h5 := List.head?_dropWhile_not isblank w.reverse
    rw [h1] at h5
    simpa using h5

/-- C3: when the header loop of `handle_client` returns a map, no key of the map
holds an uppercase ASCII letter, no key occurs twice, and the entry of every
key is the value of the last line of the block (the lines before the first
empty one) whose name lowercases to that key; that value is the text after the
first colon without the spaces and tabs at its two ends. -/
theorem C3_header_map_last_write_wins (raw : List Str) (headers : Headers) (content_length : Nat)
    (hp : parse_headers raw [] 0 = some (headers, content_length)) :
    (∀ key value, (key, value) ∈ headers → ∀ c ∈ key, ¬ is_upper c)
      ∧ (headers.map Prod.fst).Nodup
      ∧ (∀ key, headers.find key = last_value key (header_block raw))
      ∧ (∀ line : Str, ∃ a b : Str,
          (line.dropWhile (fun c => c != ':')).tail = a ++ header_value line ++ b
            ∧ (∀ c ∈ a, isblank c = true) ∧ (∀ c ∈ b, isblank c = true)
            ∧ (∀ c, (header_value line).head? = some c → isblank c = false)
            ∧ (∀ c, (header_value line).getLast? = some c → isblank c = false)) := by
  refine ⟨?_, ?_, ?_, ?_⟩
  · refine parse_headers_preserves
      (fun h => ∀ key value, (key, value) ∈ h → ∀ c ∈ key, ¬ is_upper c) ?_ raw [] 0 headers
      content_length ?_ hp
    · intro h line hP key value hmem
      rcases mem_set h _ _ _ hmem with h1 | h1
      · simp only [Prod.mk.injEq] at h1
        rw [h1.1]
        exact header_name_not_upper line
      · exact hP key value h1
    · intro key value hmem
      simp at hmem
  · exact parse_headers_preserves (fun h => (h.map Prod.fst).Nodup)
      (fun h line hP => nodup_set h _ _ hP) raw [] 0 headers content_length List.nodup_nil hp
  · intro key
    rw [parse_headers_find raw [] 0 headers content_length hp key]
    cases last_value key (header_block raw) <;> simp [Headers.find]
  · intro line
    exact trim_spec _

/-- C3, an instance: `Content-Type: a` followed by `content-type: b` leaves the
single entry `content-type -> b`. -/
theorem C3_header_map_witness :
    parse_headers [("Content-Type: a\r" : String).toList, ("content-type: b\r" : String).toList]
        [] 0
      = some ([(("content-type" : String).toList, ("b" : String).toList)], 0)
    ∧ Headers.find [(("content-type" : String).toList, ("b" : String).toList)]
        ("content-type" : String).toList
      = last_value ("content-type" : String).toList
          (header_block
            [("Content-Type: a\r" : String).toList, ("content-type: b\r" : String).toList]) :=
  ⟨rfl, (C3_header_map_last_write_wins
    [("Content-Type: a\r" : String).toList, ("content-type: b\r" : String).toList]
    [(("content-type" : String).toList, ("b" : String).toList)] 0 rfl).2.2.1
      ("content-type" : String).toList⟩

/-! ### Framing -/

/-- The Content-Length that the loop returns is the one of the last
Content-Length line of the block, or else the one it started from. -/
theorem parse_headers_length (raw : List Str) : ∀ (h0 : Headers) (c0 : Nat) (h : Headers) (n : Nat),
    parse_headers raw h0 c0 = some (h, n) →
    n = ((last_value ("content-length" : String).toList (header_block raw)).map length_of).getD c0 := by
  induction raw with
  | nil =>
    intro h0 c0 h n hp
    simp only [parse_headers, Option.some.injEq, Prod.mk.injEq] at hp
    obtain ⟨rfl, rfl⟩ := hp
    simp [header_block, last_value]
  | cons raw rest ih =>
    intro h0 c0 h n hp
    rw [header_block_cons]
    unfold parse_headers at hp
    simp only at hp
    by_cases he : (strip_cr raw).isEmpty = true
    · simp only [he, if_true, Option.some.injEq, Prod.mk.injEq] at hp
      obtain ⟨rfl, rfl⟩ := hp
      simp [he, last_value]
    · have he2 : (strip_cr raw).isEmpty = false := by simpa using he
      simp only [he2, Bool.false_eq_true, if_false] at hp ⊢
      rw [last_value_cons]
      by_cases hc : ':' ∈ strip_cr raw
      · simp only [hc, if_true] at hp
        by_cases hn : header_name (strip_cr raw) = ("content-length" : String).toList
        · simp only [hn, if_true] at hp
          have hh : is_header ("content-length" : String).toList (strip_cr raw) = true :=
            (is_header_iff _ _).mpr ⟨hc, hn⟩
          cases hs : stoul (header_value (strip_cr raw)) with
          | error e => simp [hs] at hp
          | ok m =>
            simp only [hs] at hp
            rw [ih _ m h n hp, hh]
            cases last_value ("content-length" : String).toList (header_block rest) <;>
              simp [length_of, hs]
        · simp only [hn, if_false] at hp
          have hh : is_header ("content-length" : String).toList (strip_cr raw) = false :=
            is_header_false _ _ (fun h => hn h.2)
          rw [ih _ c0 h n hp, hh]
          cases last_value ("content-length" : String).toList (header_block rest) <;> simp
      · simp only [hc, if_false] at hp
        have hh : is_header ("content-length" : String).toList (strip_cr raw) = false :=
          is_header_false _ _ (fun h => hc h.1)
        rw [ih h0 c0 h n hp, hh]
        cases last_value ("content-length" : String).toList (header_block rest) <;> simp

/-- A Content-Length line of the block whose value `std::stoul` rejects makes
the loop return early. -/
theorem parse_headers_rejects (raw : List Str) : ∀ (h0 : Headers) (c0 : Nat),
    (∃ line ∈ header_block raw, is_header ("content-length" : String).toList line = true
        ∧ ∀ n, stoul (header_value line) ≠ .ok n) →
    parse_headers raw h0 c0 = none := by
  induction raw with
  | nil =>
    intro h0 c0 hex
    obtain ⟨line, hmem, _⟩ := hex
    simp [header_block] at hmem
  | cons raw rest ih =>
    intro h0 c0 hex
    obtain ⟨line, hmem, hhead, hbad⟩ := hex
    rw [header_block_cons] at hmem
    unfold parse_headers
    simp only
    by_cases he : (strip_cr raw).isEmpty = true
    · simp [he] at hmem
    · have he2 : (strip_cr raw).isEmpty = false := by simpa using he
      simp only [he2, Bool.false_eq_true, if_false] at hmem ⊢
      by_cases hc : ':' ∈ strip_cr raw
      · simp only [hc, if_true]
        by_cases hn : header_name (strip_cr raw) = ("content-length" : String).toList
        · simp only [hn, if_true]
          cases hs : stoul (header_value (strip_cr raw)) with
          | error e => rfl
          | ok m =>
            simp only
            rcases List.mem_cons.mp hmem with h1 | h1
            · subst h1
              exact absurd hs (hbad m)
            · rw [← hn]
              exact ih _ m ⟨line, h1, hhead, hbad⟩
        · simp only [hn, if_false]
          rcases List.mem_cons.mp hmem with h1 | h1
          · subst h1
            exact absurd ((is_header_iff _ _).mp hhead).2 hn
          · exact ih _ c0 ⟨line, h1, hhead, hbad⟩
      · simp only [hc, if_false]
        rcases List.mem_cons.mp hmem with h1 | h1
        · subst h1
          exact absurd ((is_header_iff _ _).mp hhead).1 hc
        · exact ih _ c0 ⟨line, h1, hhead, hbad⟩

theorem route_no_read (parse : Str → Except JsonExn Json) (db : Sqlite)
    (method path : Str) (headers : Headers) (body : Str) (count : Nat) :
    Event.read count ∉ route parse db method path headers body := by
  unfold route
  simp only
  split <;> simp

/-- A position that `find_sub` returns is one where the pattern stands. -/
theorem find_sub_split (pattern : Str) : ∀ (text : Str) (pos : Nat),
    find_sub pattern text = some pos →
    text = text.take pos ++ pattern ++ text.drop (pos + pattern.length) := by
  intro text
  induction text with
  | nil =>
    intro pos h
    unfold find_sub at h
    by_cases hp : pattern.isEmpty = true
    · have hnil : pattern = [] := by simpa using hp
      subst hnil
      simp
    · rw [if_neg hp] at h
      cases h
  | cons c rest ih =>
    intro pos h
    unfold find_sub at h
    by_cases hp : pattern.isPrefixOf (c :: rest) = true
    · rw [if_pos hp] at h
      simp only [Option.some.injEq] at h
      subst h
      obtain ⟨t, ht⟩ := List.isPrefixOf_iff_prefix.mp hp
      rw [← ht]
      simp
    · rw [if_neg hp] at h
      cases hr : find_sub pattern rest with
      | none => rw [hr] at h; cases h
      | some k =>
        rw [hr] at h
        simp only [Option.map_some', Option.some.injEq] at h
        subst h
        have := ih k hr
        rw [Nat.add_right_comm]
        simp only [List.take_succ_cons, List.drop_succ_cons, List.cons_append]
        rw [← this]

/-- The text in which `find_sub` finds nothing does not hold the pattern. -/
theorem find_sub_none_iff (pattern : Str) : ∀ text : Str,
    find_sub pattern text = none ↔ ¬ pattern <:+: text := by
  intro text
  induction text with
  | nil =>
    cases pattern <;> simp [find_sub]
  | cons c rest ih =>
    unfold find_sub
    rw [List.infix_cons_iff, ← List.isPrefixOf_iff_prefix]
    by_cases hp : pattern.isPrefixOf (c :: rest) = true
    · rw [if_pos hp]
      simp [hp]
    · rw [if_neg hp]
      simp [hp, ih]

theorem find_sub_nil (pattern : Str) (hp : pattern ≠ []) : find_sub pattern [] = none := by
  cases pattern with
  | nil => exact absurd rfl hp
  | cons c cs => rfl

/-- The run of `handle_client` on a first read that holds the header
terminator and whose header loop returns. -/
theorem handle_client_framed (parse : Str → Except JsonExn Json) (db : Sqlite)
    (alloc : Nat → Bool)
    (data : Str) (second : ReadResult) (pos : Nat) (headers : Headers) (n : Nat)
    (hsize : data.length ≤ 4095)
    (hfind : find_sub ("\r\n\r\n" : String).toList data = some pos)
    (hparse : parse_headers (getlines (data.take pos)).tail [] 0 = some (headers, n)) :
    handle_client parse db alloc ⟨.data data, second⟩
      = if (data.drop (pos + 4)).length < n then
          if n - (data.drop (pos + 4)).length > vector_max_size
              ∨ alloc (n - (data.drop (pos + 4)).length) = false then
            [.read 4095, .terminate]
          else
            .read 4095 :: .read (n - (data.drop (pos + 4)).length)
              :: (if (received second (n - (data.drop (pos + 4)).length)).length
                    = n - (data.drop (pos + 4)).length then
                  route parse db (parse_request_line (data.take pos)).1
                    (parse_request_line (data.take pos)).2.1 headers
                    (data.drop (pos + 4) ++ received second (n - (data.drop (pos + 4)).length))
                else [.send incomplete_response, .close])
        else
          .read 4095 :: route parse db (parse_request_line (data.take pos)).1
            (parse_request_line (data.take pos)).2.1 headers ((data.drop (pos + 4)).take n) := by
  have htake : data.take (READ_BUFFER_SIZE - 1) = data := List.take_of_length_le hsize
  have hne : data ≠ [] := by
    intro h
    rw [h, find_sub_nil _ (by decide)] at hfind
    exact absurd hfind (by simp)
  have hemp : data.isEmpty = false := by
    cases data with
    | nil => exact absurd rfl hne
    | cons c cs => rfl
  rcases hreq : parse_request_line (data.take pos) with ⟨method, path, version⟩
  unfold handle_client
  simp only [htake, hemp, hfind, hparse, hreq, Bool.false_eq_true, if_false]
  have hR : READ_BUFFER_SIZE - 1 = 4095 := rfl
  rw [hR]
  by_cases hshort : (data.drop (pos + 4)).length < n
  · have hpos : n > 0 := by omega
    rw [if_pos ⟨hpos, hshort⟩, if_pos hshort]
    have hrem : ¬ ((0 : Nat) = n - (data.drop (pos + 4)).length) := by omega
    by_cases hmax : n - (data.drop (pos + 4)).length > vector_max_size
    · rw [if_pos hmax, if_pos (Or.inl hmax)]
    · rw [if_neg hmax]
      by_cases hheap : alloc (n - (data.drop (pos + 4)).length) = false
      · rw [if_pos hheap, if_pos (Or.inr hheap)]
      · rw [if_neg hheap, if_neg (fun h => h.elim hmax hheap)]
        cases second with
        | failure =>
          simp only [received, List.length_nil]
          rw [if_neg hrem]
        | data more =>
          simp only [received]
          by_cases hex : (more.take (n - (data.drop (pos + 4)).length)).isEmpty = true
          · have hnil : more.take (n - (data.drop (pos + 4)).length) = [] := by
              simpa using hex
            rw [if_pos hex, hnil]
            simp only [List.length_nil]
            rw [if_neg hrem]
          · rw [if_neg hex]
            by_cases hl : (more.take (n - (data.drop (pos + 4)).length)).length
                = n - (data.drop (pos + 4)).length
            · have hn : (data.drop (pos + 4)
                  ++ more.take (n - (data.drop (pos + 4)).length)).length = n := by
                rw [List.length_append, hl]; omega
              rw [if_neg (not_not.mpr hn), if_pos hl]
            · have hn : (data.drop (pos + 4)
                  ++ more.take (n - (data.drop (pos + 4)).length)).length ≠ n := by
                rw [List.length_append]; omega
              rw [if_pos hn, if_neg hl]
  · have h1 : ¬ (n > 0 ∧ (data.drop (pos + 4)).length < n) := fun h => hshort h.2
    rw [if_neg h1, if_neg hshort]
    by_cases hlong : (data.drop (pos + 4)).length > n
    · rw [if_pos hlong]
    · rw [if_neg hlong, List.take_of_length_le (by omega)]

/-- C4: a first read (of at most 4095 bytes) holds the header terminator at
`pos`, its header loop returns the Content-Length `n`, which is the one of the
last Content-Length line and 0 without such a line, and at least `n` bytes
follow the terminator. Then `handle_client` reads once, and the routing block
receives exactly the first `n` of the bytes after the terminator. -/
theorem C4_body_is_first_declared_bytes (parse : Str → Except JsonExn Json) (db : Sqlite)
    (alloc : Nat → Bool)
    (data : Str) (second : ReadResult) (pos : Nat) (headers : Headers) (n : Nat)
    (hsize : data.length ≤ 4095)
    (hfind : find_sub ("\r\n\r\n" : String).toList data = some pos)
    (hparse : parse_headers (getlines (data.take pos)).tail [] 0 = some (headers, n))
    (henough : n ≤ (data.drop (pos + 4)).length) :
    n = declared_content_length (header_block (getlines (data.take pos)).tail)
      ∧ handle_client parse db alloc ⟨.data data, second⟩
          = .read 4095 :: route parse db (parse_request_line (data.take pos)).1
              (parse_request_line (data.take pos)).2.1 headers ((data.drop (pos + 4)).take n)
      ∧ (∀ count, Event.read count ∉ route parse db (parse_request_line (data.take pos)).1
              (parse_request_line (data.take pos)).2.1 headers ((data.drop (pos + 4)).take n))
      ∧ ((data.drop (pos + 4)).take n).length = n
      ∧ data = data.take pos ++ ("\r\n\r\n" : String).toList ++ data.drop (pos + 4) := by
  refine ⟨?_, ?_, fun count => route_no_read _ _ _ _ _ _ count, ?_,
    find_sub_split _ data pos hfind⟩
  · rw [parse_headers_length _ [] 0 headers n hparse]
    unfold declared_content_length
    cases last_value ("content-length" : String).toList
      (header_block (getlines (data.take pos)).tail) <;> rfl
  · rw [handle_client_framed parse db alloc data second pos headers n hsize hfind hparse,
      if_neg (by omega)]
  · rw [List.length_take]
    omega

/-- C4, an instance: eleven bytes follow the terminator and five are declared;
the routing block receives `hello`. -/
theorem C4_body_witness :
    find_sub ("\r\n\r\n" : String).toList
        ("POST /health HTTP/1.1\r\nContent-Length: 5\r\n\r\nhello world" : String).toList = some 40
      ∧ handle_client sample_parse sample_db sample_alloc
          ⟨.data ("POST /health HTTP/1.1\r\nContent-Length: 5\r\n\r\nhello world" : String).toList,
            .failure⟩
        = .read 4095 :: route sample_parse sample_db ("POST" : String).toList
            ("/health" : String).toList
            [(("content-length" : String).toList, ("5" : String).toList)]
            ("hello" : String).toList :=
  ⟨rfl, (C4_body_is_first_declared_bytes sample_parse sample_db sample_alloc
    ("POST /health HTTP/1.1\r\nContent-Length: 5\r\n\r\nhello world" : String).toList .failure 40
    [(("content-length" : String).toList, ("5" : String).toList)] 5
    (by decide) rfl rfl (by decide)).2.1⟩

/-- The catch-up read when the buffer is there: a first read holds the header
terminator, its header loop returns the Content-Length `n`, fewer than `n`
bytes follow the terminator, and the buffer of the `n - len` missing bytes is
within `max_size()` and provided by the heap. Then `handle_client` issues
exactly one more read, of the missing bytes; when that read delivers all of
them the routing block receives the bytes of the first read followed by them,
and when it delivers fewer (none, a failure, some) the fixed 400 response
`Incomplete request body.` is sent, the socket is closed and the routing block
is not entered. -/
theorem catch_up_read_when_allocated (parse : Str → Except JsonExn Json) (db : Sqlite)
    (alloc : Nat → Bool)
    (data : Str) (second : ReadResult) (pos : Nat) (headers : Headers) (n : Nat)
    (hsize : data.length ≤ 4095)
    (hfind : find_sub ("\r\n\r\n" : String).toList data = some pos)
    (hparse : parse_headers (getlines (data.take pos)).tail [] 0 = some (headers, n))
    (hshort : (data.drop (pos + 4)).length < n)
    (hmax : n - (data.drop (pos + 4)).length ≤ vector_max_size)
    (hheap : alloc (n - (data.drop (pos + 4)).length) = true) :
    handle_client parse db alloc ⟨.data data, second⟩
        = .read 4095 :: .read (n - (data.drop (pos + 4)).length)
            :: (if (received second (n - (data.drop (pos + 4)).length)).length
                  = n - (data.drop (pos + 4)).length then
                route parse db (parse_request_line (data.take pos)).1
                  (parse_request_line (data.take pos)).2.1 headers
                  (data.drop (pos + 4) ++ received second (n - (data.drop (pos + 4)).length))
              else [.send incomplete_response, .close])
      ∧ (∀ count, Event.read count ∉ route parse db (parse_request_line (data.take pos)).1
            (parse_request_line (data.take pos)).2.1 headers
            (data.drop (pos + 4) ++ received second (n - (data.drop (pos + 4)).length)))
      ∧ (received second (n - (data.drop (pos + 4)).length)).length
          ≤ n - (data.drop (pos + 4)).length
      ∧ status_code_of incomplete_response = some 400
      ∧ response_body incomplete_response = some ("Incomplete request body." : String).toList
      ∧ data = data.take pos ++ ("\r\n\r\n" : String).toList ++ data.drop (pos + 4) := by
  refine ⟨?_, fun count => route_no_read _ _ _ _ _ _ count, ?_, rfl, rfl,
    find_sub_split _ data pos hfind⟩
  · have hno : ¬ (n - (data.drop (pos + 4)).length > vector_max_size
        ∨ alloc (n - (data.drop (pos + 4)).length) = false) := by
      rintro (h | h)
      · omega
      · rw [hheap] at h; cases h
    rw [handle_client_framed parse db alloc data second pos headers n hsize hfind hparse,
      if_pos hshort, if_neg hno]
  · cases second with
    | failure => simp [received]
    | data more => simp [received, List.length_take]

/-- C5 (the code breaks the claim): the declared Content-Length exceeds the
bytes of the first read, and the buffer of the shortfall cannot be created.
For the length 18446744073709551615 the size is above `max_size()` whatever
the heap, and for the length 1000000000000000 a heap that provides at most one
mebibyte refuses the block. The constructor of line 120 throws, and the run is
the first read and the exception: no second read is issued, no response is
sent and the socket is not closed, whatever the second read would deliver. -/
theorem C5_unallocatable_shortfall_ends_run (alloc : Nat → Bool) (second : ReadResult) :
    handle_client sample_parse sample_db alloc
        ⟨.data ("POST /users HTTP/1.1\r\nContent-Length: 18446744073709551615\r\n\r\nhello" : String).toList,
          second⟩
      = [.read 4095, .terminate]
    ∧ handle_client sample_parse sample_db sample_alloc
        ⟨.data ("POST /users HTTP/1.1\r\nContent-Length: 1000000000000000\r\n\r\nhello" : String).toList,
          second⟩
      = [.read 4095, .terminate]
    ∧ stoul ("18446744073709551615" : String).toList = .ok 18446744073709551615
    ∧ vector_max_size < 18446744073709551615 - 5
    ∧ sample_alloc (1000000000000000 - 5) = false :=
  ⟨rfl, rfl, rfl, by decide, rfl⟩

/-- The text that `std::stoul` rejects: no digit after the white space and the
sign, or a magnitude of `2 ^ 64` or more. -/
theorem stoul_rejects_iff (value : Str) :
    (∀ n, stoul value ≠ .ok n)
      ↔ scan_integer value = none
        ∨ ∃ negative magnitude, scan_integer value = some (negative, magnitude)
            ∧ 2 ^ 64 ≤ magnitude := by
  unfold stoul
  cases hs : scan_integer value with
  | none =>
    simp only
    exact ⟨fun _ => Or.inl trivial, fun _ n h => by cases h⟩
  | some r =>
    obtain ⟨negative, magnitude⟩ := r
    simp only
    by_cases hm : magnitude ≥ 2 ^ 64
    · rw [if_pos hm]
      exact ⟨fun _ => Or.inr ⟨negative, magnitude, rfl, hm⟩, fun _ n h => by cases h⟩
    · rw [if_neg hm]
      constructor
      · intro h
        exfalso
        cases negative
        · exact h magnitude (by simp)
        · exact h ((2 ^ 64 - magnitude) % 2 ^ 64) (by simp)
      · rintro (h | ⟨a, b, hab, hb⟩)
        · cases h
        · simp only [Option.some.injEq, Prod.mk.injEq] at hab
          obtain ⟨_, rfl⟩ := hab
          exact absurd hb hm

/-- C6 (as amended): a first read holds the header terminator and one of its
Content-Length lines, before the first empty line, has a value that
`std::stoul` rejects, that is a value without a digit after optional white
space and one optional sign (the empty value, `abc`) or of magnitude `2 ^ 64`
or more. Then `handle_client` sends the fixed 400 response
`Invalid Content-Length header.` and closes, and the routing block is not
entered. Digits followed by other text are accepted: `5abc` declares 5. -/
theorem C6_rejected_content_length (parse : Str → Except JsonExn Json) (db : Sqlite)
    (alloc : Nat → Bool)
    (data : Str) (second : ReadResult) (pos : Nat)
    (hsize : data.length ≤ 4095)
    (hfind : find_sub ("\r\n\r\n" : String).toList data = some pos)
    (hbad : ∃ line ∈ header_block (getlines (data.take pos)).tail,
      is_header ("content-length" : String).toList line = true
        ∧ ∀ n, stoul (header_value line) ≠ .ok n) :
    handle_client parse db alloc ⟨.data data, second⟩
        = [.read 4095, .send invalid_length_response, .close]
      ∧ status_code_of invalid_length_response = some 400
      ∧ response_body invalid_length_response
          = some ("Invalid Content-Length header." : String).toList
      ∧ (∀ value : Str, (∀ n, stoul value ≠ .ok n)
          ↔ scan_integer value = none
            ∨ ∃ negative magnitude, scan_integer value = some (negative, magnitude)
                ∧ 2 ^ 64 ≤ magnitude)
      ∧ stoul [] = .error .invalid_argument
      ∧ stoul ("abc" : String).toList = .error .invalid_argument
      ∧ stoul ("18446744073709551616" : String).toList = .error .out_of_range
      ∧ stoul ("5abc" : String).toList = .ok 5 := by
  refine ⟨?_, rfl, rfl, stoul_rejects_iff, rfl, rfl, rfl, rfl⟩
  have hnone := parse_headers_rejects (getlines (data.take pos)).tail [] 0 hbad
  have htake : data.take (READ_BUFFER_SIZE - 1) = data := List.take_of_length_le hsize
  have hemp : data.isEmpty = false := by
    cases data with
    | nil => rw [find_sub_nil _ (by decide)] at hfind; exact absurd hfind (by simp)
    | cons c cs => rfl
  rcases hreq : parse_request_line (data.take pos) with ⟨method, path, version⟩
  unfold handle_client
  simp only [htake, hemp, hfind, hnone, hreq, Bool.false_eq_true, if_false]
  rfl

/-- C6, an instance: the value `x` of the Content-Length line is rejected. -/
theorem C6_rejected_witness :
    find_sub ("\r\n\r\n" : String).toList
        ("GET / HTTP/1.1\r\nContent-Length: x\r\n\r\n" : String).toList = some 33
      ∧ handle_client sample_parse sample_db sample_alloc
          ⟨.data ("GET / HTTP/1.1\r\nContent-Length: x\r\n\r\n" : String).toList, .failure⟩
        = [.read 4095, .send invalid_length_response, .close] :=
  ⟨rfl, (C6_rejected_content_length sample_parse sample_db sample_alloc
    ("GET / HTTP/1.1\r\nContent-Length: x\r\n\r\n" : String).toList .failure 33
    (by decide) rfl
    ⟨("Content-Length: x" : String).toList, by decide, rfl,
      fun n (h : Except.error StoExn.invalid_argument = Except.ok n) => by cases h⟩).1⟩

/-- C6 (the claim fails): the Content-Length value `5abc` is not answered with
the 400 response; the routing block is entered with the body `hello` and the
answer is the 404 of the unknown path. -/
theorem C6_garbage_suffix_accepted :
    handle_client sample_parse sample_db sample_alloc
        ⟨.data ("GET /health HTTP/1.1\r\nContent-Length: 5abc\r\n\r\nhello" : String).toList,
          .failure⟩
      = [.read 4095,
          .dispatch ("GET" : String).toList ("/health" : String).toList
            [(("content-length" : String).toList, ("5abc" : String).toList)]
            ("hello" : String).toList,
          .send ("HTTP/1.1 404 Not Found\r\nContent-Type: application/json\r\nContent-Length: 32\r\n\r\n\x7b\"message\":\"Endpoint not found\"\x7d" : String).toList,
          .close] :=
  rfl

/-! ### Routing -/

/-- C7: for every request whose path does not begin with `/users`, whatever
its method, header map and body, the routing block sends the 404 response with
the body `{"message":"Endpoint not found"}` and closes; no model function is
called. -/
theorem C7_unknown_path_is_404 (parse : Str → Except JsonExn Json) (db : Sqlite)
    (method path : Str) (headers : Headers) (body : Str)
    (hpath : ("/users" : String).toList.isPrefixOf path = false) :
    route parse db method path headers body
      = [.dispatch method path headers body,
          .send ("HTTP/1.1 404 Not Found\r\nContent-Type: application/json\r\nContent-Length: 32\r\n\r\n\x7b\"message\":\"Endpoint not found\"\x7d" : String).toList,
          .close] := by
  unfold route
  simp only [hpath, Bool.false_eq_true, if_false]
  rfl

/-- C7, an instance: `DELETE /health`. -/
theorem C7_unknown_path_witness :
    ("/users" : String).toList.isPrefixOf ("/health" : String).toList = false
      ∧ route sample_parse sample_db ("DELETE" : String).toList ("/health" : String).toList []
          ("x" : String).toList
        = [.dispatch ("DELETE" : String).toList ("/health" : String).toList []
            ("x" : String).toList,
          .send ("HTTP/1.1 404 Not Found\r\nContent-Type: application/json\r\nContent-Length: 32\r\n\r\n\x7b\"message\":\"Endpoint not found\"\x7d" : String).toList,
          .close] :=
  ⟨rfl, C7_unknown_path_is_404 sample_parse sample_db ("DELETE" : String).toList
    ("/health" : String).toList [] ("x" : String).toList rfl⟩

theorem contains_sub_iff (pattern : Str) : ∀ text : Str,
    contains_sub pattern text = true ↔ pattern <:+: text := by
  intro text
  induction text with
  | nil =>
    cases pattern <;> simp [contains_sub]
  | cons c rest ih =>
    unfold contains_sub
    rw [Bool.or_eq_true, ih, List.infix_cons_iff, List.isPrefixOf_iff_prefix]

/-- The branch of `handle_user_request` that `POST /users` takes. -/
theorem post_users_eq (parse : Str → Except JsonExn Json) (db : Sqlite)
    (headers : Headers) (body : Str) :
    handle_user_request parse db ("POST" : String).toList ("/users" : String).toList headers body
      = if (match headers.find ("content-type" : String).toList with
            | none => true
            | some content_type =>
              !contains_sub ("application/json" : String).toList content_type) = true then
          ([], response_http_error 415 ("Content-Type must be application/json" : String).toList)
        else if body.isEmpty = true then
          ([], response_http_error 400 ("Request body is empty" : String).toList)
        else post_users_catch (post_users_try parse db body) := by
  unfold handle_user_request
  simp only
  rw [if_pos trivial, if_neg (by decide), if_pos trivial]

/-- C8 (as amended): a `POST /users` whose header map has no `content-type`, or
has one in which the text `application/json` does not occur, is answered with
the 415 response, whatever the body, and no model function is called. -/
theorem C8_not_json_is_415 (parse : Str → Except JsonExn Json) (db : Sqlite)
    (headers : Headers) (body : Str)
    (hct : headers.find ("content-type" : String).toList = none
      ∨ ∃ content_type, headers.find ("content-type" : String).toList = some content_type
          ∧ ¬ ("application/json" : String).toList <:+: content_type) :
    handle_user_request parse db ("POST" : String).toList ("/users" : String).toList headers body
      = ([], .ok ("HTTP/1.1 415 Unsupported Media Type\r\nContent-Type: application/json\r\nContent-Length: 49\r\n\r\n\x7b\"error\":\"Content-Type must be application/json\"\x7d" : String).toList) := by
  rw [post_users_eq]
  rcases hct with h | ⟨content_type, h, hno⟩
  · rw [h]
    rfl
  · rw [h]
    have hc : contains_sub ("application/json" : String).toList content_type = false := by
      cases hh : contains_sub ("application/json" : String).toList content_type with
      | false => rfl
      | true => exact absurd ((contains_sub_iff _ _).mp hh) hno
    simp only [hc]
    rfl

/-- C8, an instance: `text/plain` with a well-formed user as body. -/
theorem C8_not_json_witness :
    Headers.find [(("content-type" : String).toList, ("text/plain" : String).toList)]
        ("content-type" : String).toList = some ("text/plain" : String).toList
      ∧ handle_user_request sample_parse sample_db ("POST" : String).toList
          ("/users" : String).toList
          [(("content-type" : String).toList, ("text/plain" : String).toList)]
          ("\x7b\"username\":\"al\",\"password\":\"p\"\x7d" : String).toList
        = ([], .ok ("HTTP/1.1 415 Unsupported Media Type\r\nContent-Type: application/json\r\nContent-Length: 49\r\n\r\n\x7b\"error\":\"Content-Type must be application/json\"\x7d" : String).toList) :=
  ⟨rfl, C8_not_json_is_415 sample_parse sample_db
    [(("content-type" : String).toList, ("text/plain" : String).toList)]
    ("\x7b\"username\":\"al\",\"password\":\"p\"\x7d" : String).toList
    (Or.inr ⟨("text/plain" : String).toList, rfl,
      fun h => absurd ((contains_sub_iff _ _).mpr h) (by decide)⟩)⟩

/-- C8 (the claim fails): the content type `application/json-seq` is not
`application/json`, and yet the request is not answered with 415: an empty
body gets the 400 of the empty body, and a well-formed user is created. -/
theorem C8_other_media_type_passes :
    handle_user_request sample_parse sample_db ("POST" : String).toList
        ("/users" : String).toList
        [(("content-type" : String).toList, ("application/json-seq" : String).toList)] []
      = ([], .ok ("HTTP/1.1 400 Bad Request\r\nContent-Type: application/json\r\nContent-Length: 33\r\n\r\n\x7b\"error\":\"Request body is empty\"\x7d" : String).toList)
    ∧ handle_user_request sample_parse sample_db ("POST" : String).toList
        ("/users" : String).toList
        [(("content-type" : String).toList, ("application/json-seq" : String).toList)]
        ("\x7b\"username\":\"al\",\"password\":\"p\"\x7d" : String).toList
      = ([.create_user ("al" : String).toList ("p" : String).toList],
          .ok ("HTTP/1.1 201 Created\r\nContent-Type: application/json\r\nContent-Length: 39\r\n\r\n\x7b\"message\":\"User created successfully\"\x7d" : String).toList) :=
  ⟨rfl, rfl⟩

theorem post_users_catch_fst (r : Handled) : (post_users_catch r).1 = r.1 := by
  unfold post_users_catch
  split <;> rfl

/-- The `try` block of `POST /users` on a body that is accepted. -/
theorem post_users_try_valid (parse : Str → Except JsonExn Json) (db : Sqlite) (body u p : Str)
    (hv : valid_user_body parse body u p) :
    (post_users_try parse db body).1 = [.create_user u p] := by
  obtain ⟨_, j, hparse, hu, hp, hune, hpne⟩ := hv
  have hue : u.isEmpty = false := by cases u with
    | nil => exact absurd rfl hune
    | cons c cs => rfl
  have hpe : p.isEmpty = false := by cases p with
    | nil => exact absurd rfl hpne
    | cons c cs => rfl
  unfold post_users_try
  simp only [hparse, hu, hp, hue, hpe, Bool.or_self, Bool.false_eq_true, if_false]
  rcases create_user_in_db db u p with ⟨success, error_resp⟩
  simp only
  split
  · rfl
  · split <;> rfl

/-- The `try` and `catch` of `POST /users` on a body that is not accepted. -/
theorem post_users_invalid (parse : Str → Except JsonExn Json) (db : Sqlite) (body : Str)
    (hne : body ≠ [])
    (hv : ¬ ∃ u p, valid_user_body parse body u p) :
    (post_users_catch (post_users_try parse db body)).1 = []
      ∧ status_of (post_users_catch (post_users_try parse db body))
          = some (match parse body with
              | .error .other => 500
              | _ => 400) := by
  unfold post_users_try
  cases hparse : parse body with
  | error e =>
    cases e <;> exact ⟨rfl, rfl⟩
  | ok j =>
    simp only
    split
    · rename_i username password hu hp
      by_cases he : (username.isEmpty || password.isEmpty) = true
      · rw [if_pos he]
        exact ⟨rfl, rfl⟩
      · exfalso
        apply hv
        have hue : username ≠ [] := by
          intro h; apply he; rw [h]; rfl
        have hpe : password ≠ [] := by
          intro h; apply he; rw [h]; simp
        exact ⟨username, password, hne, j, hparse, hu, hp, hue, hpe⟩
    · exact ⟨rfl, rfl⟩

/-- C9 (as amended): for every `POST /users` whose content type holds
`application/json`, the create function of the model is called exactly when
the body is not empty and parses as a JSON value whose members `username` and
`password` are non-empty strings, and then once, with these two strings. In
every other case nothing is called and the status is 400, except that a body
on which the parser raises an exception that is neither a parse error nor a
type error is answered with 500. -/
theorem C9_post_users_validation (parse : Str → Except JsonExn Json) (db : Sqlite)
    (headers : Headers) (body content_type : Str)
    (hfind : headers.find ("content-type" : String).toList = some content_type)
    (hjson : ("application/json" : String).toList <:+: content_type) :
    (∀ u p, valid_user_body parse body u p →
        (handle_user_request parse db ("POST" : String).toList ("/users" : String).toList
          headers body).1 = [.create_user u p])
      ∧ ((¬ ∃ u p, valid_user_body parse body u p) →
          (handle_user_request parse db ("POST" : String).toList ("/users" : String).toList
            headers body).1 = []
          ∧ status_of (handle_user_request parse db ("POST" : String).toList
              ("/users" : String).toList headers body)
            = some (if body = [] then 400
                else match parse body with
                  | .error .other => 500
                  | _ => 400)) := by
  have hc : contains_sub ("application/json" : String).toList content_type = true :=
    (contains_sub_iff _ _).mpr hjson
  rw [post_users_eq, hfind]
  simp only [hc, Bool.not_true, Bool.false_eq_true, if_false]
  constructor
  · intro u p hv
    have hne : body.isEmpty = false := by
      cases body with
      | nil => exact absurd rfl hv.1
      | cons c cs => rfl
    simp only [hne, Bool.false_eq_true, if_false]
    rw [post_users_catch_fst]
    exact post_users_try_valid parse db body u p hv
  · intro hv
    by_cases hb : body = []
    · subst hb
      exact ⟨rfl, rfl⟩
    · have hne : body.isEmpty = false := by
        cases body with
        | nil => exact absurd rfl hb
        | cons c cs => rfl
      simp only [hne, Bool.false_eq_true, if_false, hb]
      exact post_users_invalid parse db body hb hv

/-- C9, an instance: a well-formed user is created with its two strings. -/
theorem C9_post_users_witness :
    Headers.find [(("content-type" : String).toList, ("application/json" : String).toList)]
        ("content-type" : String).toList = some ("application/json" : String).toList
      ∧ (handle_user_request sample_parse sample_db ("POST" : String).toList
          ("/users" : String).toList
          [(("content-type" : String).toList, ("application/json" : String).toList)]
          ("\x7b\"username\":\"al\",\"password\":\"p\"\x7d" : String).toList).1
        = [.create_user ("al" : String).toList ("p" : String).toList] :=
  ⟨rfl, (C9_post_users_validation sample_parse sample_db
    [(("content-type" : String).toList, ("application/json" : String).toList)]
    ("\x7b\"username\":\"al\",\"password\":\"p\"\x7d" : String).toList
    ("application/json" : String).toList rfl (List.infix_refl _)).1
    ("al" : String).toList ("p" : String).toList
    ⟨by decide, .obj [(("password" : String).toList, .str ("p" : String).toList),
        (("username" : String).toList, .str ("al" : String).toList)],
      rfl, rfl, rfl, by decide, by decide⟩⟩

/-- C9 (the claim fails): the body `1e999` is not a well-formed user, the
parser raises its number overflow error on it, and the status is 500. -/
theorem C9_parser_exception_is_500 :
    sample_parse ("1e999" : String).toList = .error .other
      ∧ handle_user_request sample_parse sample_db ("POST" : String).toList
          ("/users" : String).toList
          [(("content-type" : String).toList, ("application/json" : String).toList)]
          ("1e999" : String).toList
        = ([], .ok ("HTTP/1.1 500 Internal Server Error\r\nContent-Type: application/json\r\nContent-Length: 52\r\n\r\n\x7b\"error\":\"Internal server error processing request\"\x7d" : String).toList) :=
  ⟨rfl, rfl⟩

/-- The branch of `handle_user_request` that `DELETE /users/...` takes. -/
theorem delete_user_eq (parse : Str → Except JsonExn Json) (db : Sqlite)
    (id_str : Str) (headers : Headers) (body : Str) :
    handle_user_request parse db ("DELETE" : String).toList
        (("/users/" : String).toList ++ id_str) headers body
      = delete_user_catch (delete_user_try db (("/users/" : String).toList ++ id_str)) := by
  have h1 : ¬ (("/users/" : String).toList ++ id_str = ("/users" : String).toList) := by
    intro h
    have h2 := congrArg List.length h
    rw [List.length_append] at h2
    have h3 : ("/users/" : String).toList.length = 7 := rfl
    have h4 : ("/users" : String).toList.length = 6 := rfl
    omega
  have h2 : ("/users/" : String).toList.isPrefixOf (("/users/" : String).toList ++ id_str)
      = true := List.isPrefixOf_iff_prefix.mpr (List.prefix_append _ _)
  unfold handle_user_request
  simp only
  rw [if_neg h1, if_pos h2, if_pos trivial]

/-- The integers that `std::stoi` returns: the signed value of the digits read,
when it lies in the range of `int`. -/
theorem stoi_ok_iff (s : Str) (id : Int) :
    stoi s = .ok id
      ↔ ∃ negative magnitude, scan_integer s = some (negative, magnitude)
          ∧ id = (if negative = true then -(magnitude : Int) else (magnitude : Int))
          ∧ -(2 ^ 31) ≤ id ∧ id < 2 ^ 31 := by
  cases hs : scan_integer s with
  | none =>
    have h0 : stoi s = .error .invalid_argument := by unfold stoi; rw [hs]
    rw [h0]
    constructor
    · intro h; cases h
    · rintro ⟨a, b, h, _⟩; cases h
  | some r =>
    obtain ⟨negative, magnitude⟩ := r
    have h0 : stoi s
        = if (if negative = true then -(magnitude : Int) else (magnitude : Int)) < -(2 ^ 31)
            ∨ (if negative = true then -(magnitude : Int) else (magnitude : Int)) ≥ 2 ^ 31 then
            .error .out_of_range
          else .ok (if negative = true then -(magnitude : Int) else (magnitude : Int)) := by
      unfold stoi; rw [hs]
    rw [h0]
    by_cases hr : (if negative = true then -(magnitude : Int) else (magnitude : Int)) < -(2 ^ 31)
        ∨ (if negative = true then -(magnitude : Int) else (magnitude : Int)) ≥ 2 ^ 31
    · rw [if_pos hr]
      constructor
      · intro h; cases h
      · rintro ⟨a, b, hab, hid, hlo, hhi⟩
        simp only [Option.some.injEq, Prod.mk.injEq] at hab
        obtain ⟨rfl, rfl⟩ := hab
        rw [← hid] at hr
        omega
    · rw [if_neg hr]
      constructor
      · intro h
        simp only [Except.ok.injEq] at h
        rw [h] at hr
        exact ⟨negative, magnitude, rfl, h.symm, by omega, by omega⟩
      · rintro ⟨a, b, hab, hid, _, _⟩
        simp only [Option.some.injEq, Prod.mk.injEq] at hab
        obtain ⟨rfl, rfl⟩ := hab
        rw [hid]

/-- C10 (as amended): for every `DELETE` of the path `/users/` followed by
`id_str`, the delete function of the model is called exactly when `std::stoi`
reads an integer at the start of `id_str` (after optional white space and one
optional sign) that lies in the range of `int`, and then once, with that
integer; what follows the digits is ignored, so that `12abc` and `12/x` delete
user 12. When `id_str` is empty, starts with no integer (`abc`) or with one
out of the range of `int`, nothing is called and the status is 400. -/
theorem C10_delete_requires_leading_integer (parse : Str → Except JsonExn Json) (db : Sqlite)
    (id_str : Str) (headers : Headers) (body : Str) :
    (match stoi id_str with
      | .ok id =>
        (handle_user_request parse db ("DELETE" : String).toList
          (("/users/" : String).toList ++ id_str) headers body).1 = [.delete_user id]
      | .error _ =>
        (handle_user_request parse db ("DELETE" : String).toList
          (("/users/" : String).toList ++ id_str) headers body).1 = []
        ∧ status_of (handle_user_request parse db ("DELETE" : String).toList
            (("/users/" : String).toList ++ id_str) headers body) = some 400)
      ∧ (∀ (s : Str) (id : Int), stoi s = .ok id
          ↔ ∃ negative magnitude, scan_integer s = some (negative, magnitude)
              ∧ id = (if negative = true then -(magnitude : Int) else (magnitude : Int))
              ∧ -(2 ^ 31) ≤ id ∧ id < 2 ^ 31)
      ∧ stoi [] = .error .invalid_argument
      ∧ stoi ("abc" : String).toList = .error .invalid_argument
      ∧ stoi ("2147483648" : String).toList = .error .out_of_range
      ∧ stoi ("12abc" : String).toList = .ok 12
      ∧ stoi ("12/x" : String).toList = .ok 12 := by
  refine ⟨?_, stoi_ok_iff, rfl, rfl, rfl, rfl, rfl⟩
  rw [delete_user_eq]
  have hdrop : (("/users/" : String).toList ++ id_str).drop 7 = id_str := rfl
  unfold delete_user_try
  simp only [hdrop]
  by_cases he : id_str.isEmpty = true
  · have hnil : id_str = [] := by simpa using he
    subst hnil
    exact ⟨rfl, rfl⟩
  · rw [if_neg he]
    cases hs : stoi id_str with
    | error e =>
      cases e <;> exact ⟨rfl, rfl⟩
    | ok id =>
      simp only
      rcases delete_user_from_db db id with ⟨success, error_resp⟩
      simp only
      split
      · unfold delete_user_catch
        split <;> simp_all
      · split
        · unfold delete_user_catch
          split <;> simp_all
        · unfold delete_user_catch
          split <;> simp_all

/-- C10 (the claim fails): the identifiers `12abc` and `12/x` are no integer
literals, and yet the delete function of the model is called with 12. -/
theorem C10_trailing_text_ignored :
    handle_user_request sample_parse sample_db ("DELETE" : String).toList
        ("/users/12abc" : String).toList [] []
      = ([.delete_user 12],
          .ok ("HTTP/1.1 200 OK\r\nContent-Type: application/json\r\nContent-Length: 39\r\n\r\n\x7b\"message\":\"User deleted successfully\"\x7d" : String).toList)
    ∧ (handle_user_request sample_parse sample_db ("DELETE" : String).toList
        ("/users/12/x" : String).toList [] []).1 = [.delete_user 12] :=
  ⟨rfl, rfl⟩

/-! ### The failures that the model reports -/

/-- C13: a request handed to `handle_user_request` that is not `GET /users`,
not `POST /users` and not a `DELETE` of a path that begins with `/users/` gets
the 404 response of the group, with the body
`{"error":"User API endpoint not found"}`, and no model function is called;
the status is 404, not 405. When the path begins with `/users`, this is what
the routing block of `handle_client` sends before it closes. -/
theorem C13_group_default_is_404 (parse : Str → Except JsonExn Json) (db : Sqlite)
    (method path : Str) (headers : Headers) (body : Str)
    (hget : ¬ (method = ("GET" : String).toList ∧ path = ("/users" : String).toList))
    (hpost : ¬ (method = ("POST" : String).toList ∧ path = ("/users" : String).toList))
    (hdelete : ¬ (method = ("DELETE" : String).toList
      ∧ ("/users/" : String).toList.isPrefixOf path = true))
    (hgroup : ("/users" : String).toList.isPrefixOf path = true) :
    handle_user_request parse db method path headers body
        = ([], .ok ("HTTP/1.1 404 Not Found\r\nContent-Type: application/json\r\nContent-Length: 39\r\n\r\n\x7b\"error\":\"User API endpoint not found\"\x7d" : String).toList)
      ∧ route parse db method path headers body
        = [.dispatch method path headers body,
            .send ("HTTP/1.1 404 Not Found\r\nContent-Type: application/json\r\nContent-Length: 39\r\n\r\n\x7b\"error\":\"User API endpoint not found\"\x7d" : String).toList,
            .close]
      ∧ status_code_of ("HTTP/1.1 404 Not Found\r\nContent-Type: application/json\r\nContent-Length: 39\r\n\r\n\x7b\"error\":\"User API endpoint not found\"\x7d" : String).toList
        = some 404 := by
  have hreq : handle_user_request parse db method path headers body
      = ([], .ok ("HTTP/1.1 404 Not Found\r\nContent-Type: application/json\r\nContent-Length: 39\r\n\r\n\x7b\"error\":\"User API endpoint not found\"\x7d" : String).toList) := by
    unfold handle_user_request
    simp only
    by_cases hp : path = ("/users" : String).toList
    · have hg : ¬ method = ("GET" : String).toList := fun h => hget ⟨h, hp⟩
      have hq : ¬ method = ("POST" : String).toList := fun h => hpost ⟨h, hp⟩
      rw [if_pos hp, if_neg hg, if_neg hq]
      rfl
    · rw [if_neg hp]
      by_cases hs : ("/users/" : String).toList.isPrefixOf path = true
      · have hd : ¬ method = ("DELETE" : String).toList := fun h => hdelete ⟨h, hs⟩
        rw [if_pos hs, if_neg hd]
        rfl
      · rw [if_neg hs]
        rfl
  refine ⟨hreq, ?_, rfl⟩
  unfold route
  simp only [hgroup, if_true, hreq]
  rfl

/-- C13, an instance: `PUT /users`. -/
theorem C13_group_default_witness :
    ("/users" : String).toList.isPrefixOf ("/users" : String).toList = true
      ∧ handle_user_request sample_parse sample_db ("PUT" : String).toList
          ("/users" : String).toList [] []
        = ([], .ok ("HTTP/1.1 404 Not Found\r\nContent-Type: application/json\r\nContent-Length: 39\r\n\r\n\x7b\"error\":\"User API endpoint not found\"\x7d" : String).toList) :=
  ⟨rfl, (C13_group_default_is_404 sample_parse sample_db ("PUT" : String).toList
    ("/users" : String).toList [] [] (by decide) (by decide) (by decide) rfl).1⟩

/-! ### One response, then close -/

theorem response_http_of_dump_ok (status_code : Int) (data : Json) (content_type body : Str)
    (h : dump data = .ok body) :
    ∃ response, response_http status_code data content_type = .ok response := by
  unfold response_http
  rw [h]
  exact ⟨_, rfl⟩

theorem response_http_of_dump_error (status_code : Int) (data : Json) (content_type : Str)
    (e : JsonExn) (h : dump data = .error e) :
    response_http status_code data content_type = .error e := by
  unfold response_http
  rw [h]
  rfl

theorem post_users_catch_ok (r : Handled) : ∃ response, (post_users_catch r).2 = .ok response := by
  unfold post_users_catch
  split
  · rename_i response h
    exact ⟨response, h⟩
  · exact ⟨_, rfl⟩
  · exact ⟨_, rfl⟩
  · exact ⟨_, rfl⟩

theorem delete_user_catch_ok (r : Except StoExn Handled) :
    ∃ response, (delete_user_catch r).2 = .ok response := by
  unfold delete_user_catch
  split
  · exact ⟨_, rfl⟩
  · exact ⟨_, rfl⟩
  · exact ⟨_, rfl⟩
  · exact ⟨_, rfl⟩

/-- The error payload of `get_all_users_from_db` is null or can be serialised. -/
theorem get_all_users_error_payload (db : Sqlite) :
    (get_all_users_from_db db).2.is_null = true
      ∨ ((get_all_users_from_db db).2.is_null = false
          ∧ ∃ response, response_http 500 (get_all_users_from_db db).2 = .ok response) := by
  unfold get_all_users_from_db
  cases db.connected
  · exact Or.inr ⟨rfl, _, rfl⟩
  · cases db.select_users with
    | none => exact Or.inr ⟨rfl, _, rfl⟩
    | some rows => exact Or.inl rfl

/-- The controller returns a response, except that `GET /users` raises the
exception of the serialiser when the list of users cannot be serialised. -/
theorem handle_user_request_result (parse : Str → Except JsonExn Json) (db : Sqlite)
    (method path : Str) (headers : Headers) (body : Str) :
    (∃ response, (handle_user_request parse db method path headers body).2 = .ok response)
      ∨ (∃ e, (handle_user_request parse db method path headers body).2 = .error e
          ∧ method = ("GET" : String).toList ∧ path = ("/users" : String).toList
          ∧ dump (get_all_users_from_db db).1 = .error e) := by
  unfold handle_user_request
  simp only
  by_cases hp : path = ("/users" : String).toList
  · rw [if_pos hp]
    by_cases hg : method = ("GET" : String).toList
    · rw [if_pos hg]
      rcases get_all_users_error_payload db with hnull | ⟨hnn, response, hresp⟩
      · simp only [hnull, Bool.not_true, Bool.false_eq_true, if_false]
        cases hd : dump (get_all_users_from_db db).1 with
        | ok text =>
          obtain ⟨response, hr⟩ := response_http_of_dump_ok 200 _
            ("application/json" : String).toList text hd
          exact Or.inl ⟨response, hr⟩
        | error e =>
          exact Or.inr ⟨e, response_http_of_dump_error 200 _ _ e hd, hg, hp, rfl⟩
      · simp only [hnn, Bool.not_false, if_true]
        exact Or.inl ⟨response, hresp⟩
    · rw [if_neg hg]
      left
      by_cases hq : method = ("POST" : String).toList
      · rw [if_pos hq]
        split
        · exact ⟨_, rfl⟩
        · split
          · exact ⟨_, rfl⟩
          · exact post_users_catch_ok _
      · rw [if_neg hq]
        exact ⟨_, rfl⟩
  · rw [if_neg hp]
    left
    split
    · split
      · exact delete_user_catch_ok _
      · exact ⟨_, rfl⟩
    · exact ⟨_, rfl⟩

theorem quiet_calls (calls : List Call) : ∀ ev ∈ calls.map Event.call, ev.is_quiet = true := by
  intro ev hev
  obtain ⟨c, _, hc⟩ := List.mem_map.mp hev
  subst hc
  rfl

/-- The routing block ends with one response and the close, or with the
exception that `GET /users` lets through. -/
theorem route_shape (parse : Str → Except JsonExn Json) (db : Sqlite)
    (method path : Str) (headers : Headers) (body : Str) :
    (∃ pre response, route parse db method path headers body = pre ++ [.send response, .close]
        ∧ ∀ ev ∈ pre, ev.is_quiet = true)
      ∨ (∃ pre e, route parse db method path headers body = pre ++ [.terminate]
          ∧ (∀ ev ∈ pre, ev.is_quiet = true)
          ∧ method = ("GET" : String).toList ∧ path = ("/users" : String).toList
          ∧ dump (get_all_users_from_db db).1 = .error e) := by
  have hq : ∀ calls : List Call,
      ∀ ev ∈ Event.dispatch method path headers body :: calls.map Event.call,
        ev.is_quiet = true := by
    intro calls ev hev
    rcases List.mem_cons.mp hev with h | h
    · subst h; rfl
    · exact quiet_calls calls ev h
  unfold route
  simp only
  by_cases hpre : ("/users" : String).toList.isPrefixOf path = true
  · rw [if_pos hpre]
    rcases hh : handle_user_request parse db method path headers body with ⟨calls, res⟩
    rcases handle_user_request_result parse db method path headers body with
      ⟨response, hr⟩ | ⟨e, he, hm, hp, hd⟩
    · rw [hh] at hr
      simp only at hr
      subst hr
      exact Or.inl ⟨_, response, rfl, hq calls⟩
    · rw [hh] at he
      simp only at he
      subst he
      exact Or.inr ⟨_, e, rfl, hq calls, hm, hp, hd⟩
  · rw [if_neg hpre]
    exact Or.inl ⟨_, _, rfl, hq []⟩

theorem filter_send_quiet (pre : List Event) (h : ∀ ev ∈ pre, ev.is_quiet = true) :
    pre.filter Event.is_send = [] ∧ pre.filter Event.is_close = [] := by
  constructor
  · rw [List.filter_eq_nil_iff]
    intro ev hev
    have := h ev hev
    cases ev <;> simp_all [Event.is_quiet, Event.is_send]
  · rw [List.filter_eq_nil_iff]
    intro ev hev
    have := h ev hev
    cases ev <;> simp_all [Event.is_quiet, Event.is_close]

theorem route_tail_shape (parse : Str → Except JsonExn Json) (db : Sqlite)
    (method path : Str) (headers : Headers) (body : Str) (lead : List Event)
    (hlead : ∀ ev ∈ lead, ev.is_quiet = true) :
    (∃ pre response,
        lead ++ route parse db method path headers body = pre ++ [.send response, .close]
          ∧ ∀ ev ∈ pre, ev.is_quiet = true)
      ∨ (∃ pre e, lead ++ route parse db method path headers body = pre ++ [.terminate]
          ∧ (∀ ev ∈ pre, ev.is_quiet = true)
          ∧ dump (get_all_users_from_db db).1 = .error e) := by
  rcases route_shape parse db method path headers body with
    ⟨pre, response, hr, hq⟩ | ⟨pre, e, hr, hq, _, _, hd⟩
  · refine Or.inl ⟨lead ++ pre, response, ?_, ?_⟩
    · rw [hr, List.append_assoc]
    · intro ev hev
      rcases List.mem_append.mp hev with h | h
      · exact hlead ev h
      · exact hq ev h
  · refine Or.inr ⟨lead ++ pre, e, ?_, ?_, hd⟩
    · rw [hr, List.append_assoc]
    · intro ev hev
      rcases List.mem_append.mp hev with h | h
      · exact hlead ev h
      · exact hq ev h

/-- The shape of every run of `handle_client`: after the first read, nothing
but the close when the read delivered no byte; otherwise quiet events, then
one response and the close, or quiet events and the exception that leaves
`GET /users` when the list of users cannot be serialised, or at once the
exception of the buffer that cannot be created. -/
theorem handle_client_shape (parse : Str → Except JsonExn Json) (db : Sqlite)
    (alloc : Nat → Bool) (sock : Socket) :
    (received sock.first 4095 = [] ∧ handle_client parse db alloc sock = [.read 4095, .close])
      ∨ (received sock.first 4095 ≠ []
          ∧ ∃ pre response,
              handle_client parse db alloc sock = .read 4095 :: (pre ++ [.send response, .close])
                ∧ ∀ ev ∈ pre, ev.is_quiet = true)
      ∨ (received sock.first 4095 ≠ []
          ∧ ∃ pre e, handle_client parse db alloc sock = .read 4095 :: (pre ++ [.terminate])
                ∧ (∀ ev ∈ pre, ev.is_quiet = true)
                ∧ dump (get_all_users_from_db db).1 = .error e)
      ∨ (received sock.first 4095 ≠ []
          ∧ handle_client parse db alloc sock = [.read 4095, .terminate]) := by
  obtain ⟨first, second⟩ := sock
  have hR : READ_BUFFER_SIZE - 1 = 4095 := rfl
  have hnone : ∀ ev ∈ ([] : List Event), ev.is_quiet = true := by
    intro ev hev; cases hev
  have lift : ∀ (t rest : List Event), t = .read 4095 :: rest →
      ((∃ pre response, rest = pre ++ [.send response, .close]
          ∧ ∀ ev ∈ pre, ev.is_quiet = true)
        ∨ (∃ pre e, rest = pre ++ [.terminate] ∧ (∀ ev ∈ pre, ev.is_quiet = true)
            ∧ dump (get_all_users_from_db db).1 = .error e)) →
      (∃ pre response, t = .read 4095 :: (pre ++ [.send response, .close])
          ∧ ∀ ev ∈ pre, ev.is_quiet = true)
        ∨ (∃ pre e, t = .read 4095 :: (pre ++ [.terminate])
            ∧ (∀ ev ∈ pre, ev.is_quiet = true)
            ∧ dump (get_all_users_from_db db).1 = .error e)
        ∨ t = [.read 4095, .terminate] := by
    intro t rest ht h
    rcases h with ⟨pre, response, hr, hq⟩ | ⟨pre, e, hr, hq, hd⟩
    · exact Or.inl ⟨pre, response, by rw [ht, hr], hq⟩
    · exact Or.inr (Or.inl ⟨pre, e, by rw [ht, hr], hq, hd⟩)
  cases first with
  | failure => exact Or.inl ⟨rfl, rfl⟩
  | data avail =>
    by_cases hemp : (avail.take 4095).isEmpty = true
    · have hnil : avail.take 4095 = [] := by simpa using hemp
      refine Or.inl ⟨hnil, ?_⟩
      unfold handle_client
      simp only [hR]
      rw [if_pos hemp]
    · have hne : avail.take 4095 ≠ [] := by
        intro h; apply hemp; rw [h]; rfl
      have key : (∃ pre response, handle_client parse db alloc ⟨.data avail, second⟩
            = .read 4095 :: (pre ++ [.send response, .close])
              ∧ ∀ ev ∈ pre, ev.is_quiet = true)
          ∨ (∃ pre e, handle_client parse db alloc ⟨.data avail, second⟩
              = .read 4095 :: (pre ++ [.terminate])
              ∧ (∀ ev ∈ pre, ev.is_quiet = true)
              ∧ dump (get_all_users_from_db db).1 = .error e)
          ∨ handle_client parse db alloc ⟨.data avail, second⟩ = [.read 4095, .terminate] := by
        unfold handle_client
        simp only [hR]
        rw [if_neg hemp]
        cases hfs : find_sub ("\r\n\r\n" : String).toList (avail.take 4095) with
        | none => exact Or.inl ⟨[], malformed_response, rfl, hnone⟩
        | some pos =>
          simp only
          rcases hreq : parse_request_line ((avail.take 4095).take pos) with ⟨m, p, v⟩
          simp only
          cases hph : parse_headers (getlines ((avail.take 4095).take pos)).tail [] 0 with
          | none => exact Or.inl ⟨[], invalid_length_response, rfl, hnone⟩
          | some r =>
            obtain ⟨headers, n⟩ := r
            simp only
            have hread : ∀ k, ∀ ev ∈ [Event.read k], ev.is_quiet = true := by
              intro k ev hev
              rw [List.mem_singleton] at hev
              subst hev; rfl
            split
            · split
              · exact Or.inr (Or.inr rfl)
              · split
                · exact Or.inr (Or.inr rfl)
                · split
                  · exact Or.inl ⟨[.read _], incomplete_response, rfl, hread _⟩
                  · split
                    · exact Or.inl ⟨[.read _], incomplete_response, rfl, hread _⟩
                    · split
                      · exact Or.inl ⟨[.read _], incomplete_response, rfl, hread _⟩
                      · exact lift _ _ rfl
                          (route_tail_shape parse db _ _ _ _ [.read _] (hread _))
            · split
              · exact lift _ _ rfl (route_tail_shape parse db _ _ _ _ [] hnone)
              · exact lift _ _ rfl (route_tail_shape parse db _ _ _ _ [] hnone)
      rcases key with h | h | h
      · exact Or.inr (Or.inl ⟨hne, h⟩)
      · exact Or.inr (Or.inr (Or.inl ⟨hne, h⟩))
      · exact Or.inr (Or.inr (Or.inr ⟨hne, h⟩))

/-- Every run of `handle_client` writes at most one response. It ends with its
only close of the socket, and then it has written no response exactly when the
first read delivered no byte; or it ends by an exception, without a response
and without a close. -/
theorem run_ends_by_close_or_exception (parse : Str → Except JsonExn Json) (db : Sqlite)
    (alloc : Nat → Bool) (sock : Socket) :
    ((handle_client parse db alloc sock).filter Event.is_send).length ≤ 1
      ∧ (((handle_client parse db alloc sock).getLast? = some .close
            ∧ ((handle_client parse db alloc sock).filter Event.is_close).length = 1
            ∧ ((handle_client parse db alloc sock).filter Event.is_send = []
                ↔ received sock.first 4095 = []))
          ∨ ((handle_client parse db alloc sock).getLast? = some .terminate
              ∧ (handle_client parse db alloc sock).filter Event.is_send = []
              ∧ (handle_client parse db alloc sock).filter Event.is_close = [])) := by
  refine ⟨?_, ?_⟩
  · rcases handle_client_shape parse db alloc sock with
      ⟨_, ht⟩ | ⟨_, pre, response, ht, hq⟩ | ⟨_, pre, e, ht, hq, _⟩ | ⟨_, ht⟩
    · rw [ht]; decide
    · rw [ht]
      simp [List.filter_cons, List.filter_append, (filter_send_quiet pre hq).1, Event.is_send]
    · rw [ht]
      simp [List.filter_cons, List.filter_append, (filter_send_quiet pre hq).1, Event.is_send]
    · rw [ht]; decide
  · rcases handle_client_shape parse db alloc sock with
      ⟨hrec, ht⟩ | ⟨hrec, pre, response, ht, hq⟩ | ⟨_, pre, e, ht, hq, hd⟩ | ⟨_, ht⟩
    · left
      rw [ht]
      exact ⟨rfl, rfl, ⟨fun _ => hrec, fun _ => rfl⟩⟩
    · left
      rw [ht]
      refine ⟨?_, ?_, ?_⟩
      · have : Event.read 4095 :: (pre ++ [Event.send response, Event.close])
            = (Event.read 4095 :: pre ++ [Event.send response]) ++ [Event.close] := by simp
        rw [this, List.getLast?_append]
        rfl
      · simp [List.filter_cons, List.filter_append, (filter_send_quiet pre hq).2,
          Event.is_close]
      · constructor
        · intro h
          simp [List.filter_cons, List.filter_append, (filter_send_quiet pre hq).1,
            Event.is_send] at h
        · intro h
          exact absurd h hrec
    · right
      rw [ht]
      refine ⟨?_, ?_, ?_⟩
      · have : Event.read 4095 :: (pre ++ [Event.terminate])
            = (Event.read 4095 :: pre) ++ [Event.terminate] := by simp
        rw [this, List.getLast?_append]
        rfl
      · simp [List.filter_cons, List.filter_append, (filter_send_quiet pre hq).1,
          Event.is_send]
      · simp [List.filter_cons, List.filter_append, (filter_send_quiet pre hq).2,
          Event.is_close]
    · right
      rw [ht]
      exact ⟨rfl, rfl, rfl⟩

/-- A first read whose bytes lack the header terminator is answered with the
fixed 400 response `Malformed request headers.`, without another read and
without entering the routing block. -/
theorem run_without_terminator (parse : Str → Except JsonExn Json) (db : Sqlite)
    (alloc : Nat → Bool) (sock : Socket)
    (hrec : received sock.first 4095 ≠ [])
    (hno : ¬ ("\r\n\r\n" : String).toList <:+: received sock.first 4095) :
    handle_client parse db alloc sock = [.read 4095, .send malformed_response, .close] := by
  obtain ⟨first, second⟩ := sock
  cases first with
  | failure => exact absurd rfl hrec
  | data avail =>
    have hne : avail.take 4095 ≠ [] := hrec
    have hemp : (avail.take 4095).isEmpty = false := by
      cases h : avail.take 4095 with
      | nil => exact absurd h hne
      | cons c cs => rfl
    have hfs : find_sub ("\r\n\r\n" : String).toList (avail.take 4095) = none :=
      (find_sub_none_iff _ _).mpr hno
    have hR : READ_BUFFER_SIZE - 1 = 4095 := rfl
    unfold handle_client
    simp only [hR, hemp, hfs, Bool.false_eq_true, if_false]

/-- C12 (the code breaks the claim): the first read delivers a whole request
that declares the Content-Length `-1`. `std::stoul` reads it as
18446744073709551615, the buffer of the shortfall is above `max_size()`
whatever the heap, and the constructor of line 120 throws out of
`handle_client`: the run is the first read and the exception. The first read
delivered bytes and yet no response is written, and the socket is not closed,
whatever the second read would deliver. -/
theorem C12_refused_buffer_skips_response_and_close (alloc : Nat → Bool)
    (second : ReadResult) :
    handle_client sample_parse sample_db alloc
        ⟨.data ("GET /health HTTP/1.1\r\nContent-Length: -1\r\n\r\nhello" : String).toList,
          second⟩
      = [.read 4095, .terminate]
    ∧ received
        (ReadResult.data
          ("GET /health HTTP/1.1\r\nContent-Length: -1\r\n\r\nhello" : String).toList) 4095
      ≠ []
    ∧ ([Event.read 4095, Event.terminate].filter Event.is_send = []
        ∧ [Event.read 4095, Event.terminate].filter Event.is_close = [])
    ∧ stoul ("-1" : String).toList = .ok 18446744073709551615
    ∧ vector_max_size < 18446744073709551615 - 5 :=
  ⟨rfl, by decide, ⟨rfl, rfl⟩, rfl, by decide⟩

end WebApp
